import Mathlib

/-!
Task-execution transformers.

A shallow embedding of `pkg/repositories/transformers/task_execution.go`:
the create path (`CreateTaskExecutionModel`), the update path
(`UpdateTaskExecutionModel`), the two state-transition handlers, the log merge
and the custom-metadata merge, followed by theorems about them.

Conventions of the embedding.

* Go pointers that may be nil are `Option`s; slices are `List`s (a nil slice and
  an empty slice are both `[]`, as `len` cannot tell them apart).
* A function that mutates its arguments through pointers returns the mutated
  values next to its error, so that writes made before a failing step remain
  visible in the result.
* `time.Time` is the number of nanoseconds since the Unix epoch, `time.Duration`
  is a number of nanoseconds kept inside the `int64` range.
* `logger.Warning` appends the message to a list of diagnostics.
* A JSON text is represented by the document tree it denotes.
-/

namespace Transformers

/-! ## Phases -/

/-- The enumeration `core.TaskExecution_Phase`. -/
inductive Phase where
  | UNDEFINED
  | QUEUED
  | RUNNING
  | SUCCEEDED
  | ABORTED
  | FAILED
  | INITIALIZING
  | WAITING_FOR_RESOURCES
deriving DecidableEq, Repr

/-- The generated method `Phase.String()`: the name of the enumeration value. -/
def Phase.name : Phase → String
  | .UNDEFINED => "UNDEFINED"
  | .QUEUED => "QUEUED"
  | .RUNNING => "RUNNING"
  | .SUCCEEDED => "SUCCEEDED"
  | .ABORTED => "ABORTED"
  | .FAILED => "FAILED"
  | .INITIALIZING => "INITIALIZING"
  | .WAITING_FOR_RESOURCES => "WAITING_FOR_RESOURCES"

/-- Modelled from the spec: `common.IsTaskExecutionTerminal` lives in package `common`,
which is not among the sources. The spec calls terminal "any phase from which no further
transition occurs" and lists succeeded, failed and aborted as such phases. -/
def IsTaskExecutionTerminal (phase : Phase) : Bool :=
  phase == Phase.ABORTED || phase == Phase.FAILED || phase == Phase.SUCCEEDED

/-! ## Timestamps and durations (protobuf well-known types, Go `time`) -/

/-- The message `google.protobuf.Timestamp`. -/
structure Timestamp where
  seconds : Int
  nanos : Int
deriving DecidableEq, Repr

/-- The message `google.protobuf.Duration`. -/
structure Duration where
  seconds : Int
  nanos : Int
deriving DecidableEq, Repr

/-- An instant of `time.Time`, in nanoseconds since the Unix epoch. -/
abbrev Time := Int

/-- Seconds field of the earliest valid Timestamp, 0001-01-01T00:00:00Z. -/
def minValidSeconds : Int := -62135596800

/-- Seconds field just after the latest valid Timestamp, 10000-01-01T00:00:00Z. -/
def maxValidSeconds : Int := 253402300800

/-- Library `ptypes`: the validity check shared by `Timestamp` and `TimestampProto`.
A nil timestamp, seconds outside years 1 to 9999, or nanos outside `[0, 1e9)` are invalid. -/
def validateTimestamp : Option Timestamp → Bool
  | none => false
  | some ts =>
    decide (minValidSeconds ≤ ts.seconds) && decide (ts.seconds < maxValidSeconds)
      && decide (0 ≤ ts.nanos) && decide (ts.nanos < 1000000000)

/-- Library `ptypes.Timestamp`: the instant `time.Unix(seconds, nanos)` of a valid
timestamp, an error otherwise. -/
def ptypesTimestamp (ts : Option Timestamp) : Except String Time :=
  match ts with
  | none => .error "timestamp: nil Timestamp"
  | some t =>
    if validateTimestamp (some t) then .ok (t.seconds * 1000000000 + t.nanos)
    else .error "timestamp: invalid Timestamp"

/-- Library `ptypes.TimestampProto`: `t.Unix()` and `t.Nanosecond()` (floor division by one
second), rejected when the result is outside the valid range. -/
def ptypesTimestampProto (t : Time) : Except String Timestamp :=
  let ts : Timestamp := { seconds := t / 1000000000, nanos := t % 1000000000 }
  if validateTimestamp (some ts) then .ok ts else .error "timestamp: invalid Timestamp"

/-- The largest `time.Duration`, `1<<63 - 1` nanoseconds. -/
def maxDuration : Int := 9223372036854775807

/-- The smallest `time.Duration`, `-1 << 63` nanoseconds. -/
def minDuration : Int := -9223372036854775808

/-- Go `Time.Sub`: the duration `t - u`; when the result exceeds the largest (or smallest)
value that can be stored in a `Duration`, the largest (or smallest) duration is returned. -/
def timeSub (t u : Time) : Int :=
  if t - u > maxDuration then maxDuration
  else if t - u < minDuration then minDuration
  else t - u

/-- Library `ptypes.DurationProto`: whole seconds by truncating division, the remainder as
nanos. -/
def ptypesDurationProto (d : Int) : Duration :=
  let secs := Int.tdiv d 1000000000
  { seconds := secs, nanos := d - secs * 1000000000 }

/-- The number of nanoseconds a `google.protobuf.Duration` stands for. -/
def Duration.toNanos (d : Duration) : Int := d.seconds * 1000000000 + d.nanos

/-- The instant a `google.protobuf.Timestamp` stands for. -/
def Timestamp.toTime (ts : Timestamp) : Time := ts.seconds * 1000000000 + ts.nanos

/-! ## Semi-structured documents (`google.protobuf.Struct`) -/

/-- A `double` held by a `google.protobuf.Value`. The merge never computes with a number,
it only carries it, so the finite values are represented by integers. -/
inductive Number where
  | finite (v : Int)
  | nan
  | inf (negative : Bool)
deriving DecidableEq, Repr

mutual
/-- The message `google.protobuf.Value`; `unset` is a value none of whose kinds is set. -/
inductive Value where
  | unset
  | null
  | number (n : Number)
  | string (s : String)
  | bool (b : Bool)
  | struct (fields : Fields)
  | list (values : Values)
deriving DecidableEq
/-- The fields of a `google.protobuf.Struct`, as a list of entries. A Go map holds a key at
most once (`Fields.keysUnique`). -/
inductive Fields where
  | nil
  | cons (key : String) (value : Value) (rest : Fields)
deriving DecidableEq
/-- The elements of a `google.protobuf.ListValue`. -/
inductive Values where
  | nil
  | cons (value : Value) (rest : Values)
deriving DecidableEq
end

/-- The value a document maps a key to, if any. -/
def Fields.lookup (k : String) : Fields → Option Value
  | .nil => none
  | .cons key v rest => if key = k then some v else Fields.lookup k rest

/-- Go `delete(doc, k)`. -/
def Fields.erase (k : String) : Fields → Fields
  | .nil => .nil
  | .cons key v rest =>
    if key = k then Fields.erase k rest else .cons key v (Fields.erase k rest)

/-- Go `doc[k] = v`. -/
def Fields.set (k : String) (v : Value) : Fields → Fields
  | .nil => .cons k v .nil
  | .cons key w rest =>
    if key = k then .cons key v rest else .cons key w (Fields.set k v rest)

/-- Whether a document has an entry for the key. -/
def Fields.hasKey (k : String) (fs : Fields) : Bool := (fs.lookup k).isSome

/-- No key occurs twice at the top level of the document. -/
def Fields.keysUnique : Fields → Bool
  | .nil => true
  | .cons key _ rest => !(rest.hasKey key) && rest.keysUnique

/-- Concatenation of two entry lists. -/
def Fields.append : Fields → Fields → Fields
  | .nil, gs => gs
  | .cons key v rest, gs => .cons key v (Fields.append rest gs)

/-- Whether a document has no entry. -/
def Fields.isEmpty : Fields → Bool
  | .nil => true
  | .cons _ _ _ => false

mutual
/-- Whether `protojson.Marshal` accepts the value: it rejects a value with no kind set and
a number that is NaN or infinite. -/
def Value.encodable : Value → Bool
  | .unset => false
  | .null => true
  | .number (.finite _) => true
  | .number _ => false
  | .string _ => true
  | .bool _ => true
  | .struct fs => Fields.encodable fs
  | .list vs => Values.encodable vs
/-- Whether `protojson.Marshal` accepts every field of the document. -/
def Fields.encodable : Fields → Bool
  | .nil => true
  | .cons _ v rest => Value.encodable v && Fields.encodable rest
/-- Whether `protojson.Marshal` accepts every element of the list. -/
def Values.encodable : Values → Bool
  | .nil => true
  | .cons v rest => Value.encodable v && Values.encodable rest
end

/-- Library `protojson.Marshal` on a `Struct`: the JSON object with the same fields, or an
error when some value cannot be rendered. -/
def protojsonMarshal (s : Fields) : Except String Fields :=
  if s.encodable then .ok s else .error "proto: google.protobuf.Value: invalid value"

/-- Library `protojson.Unmarshal` into a `Struct`: every JSON object is accepted. -/
def protojsonUnmarshal (json : Fields) : Except String Fields := .ok json

/-- The package variable `jsonEmpty`: the JSON rendering of the empty `Struct`. -/
def jsonEmpty : Fields := .nil

/-! ## The merge-patch library (`github.com/evanphx/json-patch`) -/

/-- Modelled from the spec: the second half of patch derivation. The library is not among
the sources; the spec describes a merge patch as "a document describing only the changed or
removed fields needed to transform one document into another". A removed field is a field
of the original that the modified document lacks; the patch maps it to null. -/
def diffDeleted (original modified : Fields) : Fields :=
  match original with
  | .nil => .nil
  | .cons key _ rest =>
    if modified.hasKey key then diffDeleted rest modified
    else .cons key .null (diffDeleted rest modified)

/-- Modelled from the spec: the first half of patch derivation, the changed fields. A field
of the modified document that the original lacks, or holds with another value, goes into the
patch; two nested objects are compared recursively and contribute their own patch when it
is not empty. -/
def diffChanged (original : Fields) : Fields → Fields
  | .nil => .nil
  | .cons key (.struct bo) rest =>
    match original.lookup key with
    | some (.struct ao) =>
      let dst := (diffChanged ao bo).append (diffDeleted ao bo)
      if dst.isEmpty then diffChanged original rest
      else .cons key (.struct dst) (diffChanged original rest)
    | _ => .cons key (.struct bo) (diffChanged original rest)
  | .cons key bv rest =>
    match original.lookup key with
    | some av =>
      if av = bv then diffChanged original rest else .cons key bv (diffChanged original rest)
    | none => .cons key bv (diffChanged original rest)

/-- Modelled from the spec: `jsonpatch.CreateMergePatch(original, modified)` on two JSON
objects, "the patch that transforms" the original into the modified document. -/
def createMergePatch (original modified : Fields) : Except String Fields :=
  .ok ((diffChanged original modified).append (diffDeleted original modified))

/-- Modelled from the spec: applying a merge patch to a document (RFC 7396). A field that
the patch maps to null is removed; a field that the patch maps to an object is merged
recursively into the object the document holds there (into the empty object when the
document holds none); any other field of the patch, array or scalar, replaces the field of
the document; the fields the patch does not mention are kept. -/
def mergeDocs (doc : Fields) : Fields → Fields
  | .nil => doc
  | .cons key .null rest => mergeDocs (doc.erase key) rest
  | .cons key (.struct patch) rest =>
    match doc.lookup key with
    | some (.struct cur) => mergeDocs (doc.set key (.struct (mergeDocs cur patch))) rest
    | _ => mergeDocs (doc.set key (.struct (mergeDocs .nil patch))) rest
  | .cons key v rest => mergeDocs (doc.set key v) rest

/-- Modelled from the spec: `jsonpatch.MergePatch(doc, patch)` on two JSON objects. -/
def mergePatch (doc patch : Fields) : Except String Fields :=
  .ok (mergeDocs doc patch)

/-! ## Events, closures and records -/

/-- The message `core.TaskLog`, a log reference identified by its URI. -/
structure TaskLog where
  uri : String
  name : String
deriving DecidableEq, Repr

/-- The message `core.ExecutionError`. -/
structure ExecutionError where
  code : String
  message : String
  errorUri : String
deriving DecidableEq, Repr

/-- The oneof `output_result` of a task execution event. -/
inductive EventOutputResult where
  | unset
  | outputUri (uri : String)
  | error (e : ExecutionError)
deriving DecidableEq, Repr

/-- The oneof `output_result` of a task execution closure. -/
inductive ClosureOutputResult where
  | unset
  | outputUri (uri : String)
  | error (e : ExecutionError)
deriving DecidableEq, Repr

/-- The enumeration `core.ResourceType`. -/
inductive ResourceType where
  | UNSPECIFIED
  | TASK
  | WORKFLOW
  | LAUNCH_PLAN
  | DATASET
deriving DecidableEq, Repr

/-- The message `core.Identifier` of a task. An identifier that names no resource type
holds the zero value of the enumeration. -/
structure Identifier where
  resourceType : ResourceType := ResourceType.UNSPECIFIED
  project : String
  domain : String
  name : String
  version : String
deriving DecidableEq, Repr

/-- The message `core.WorkflowExecutionIdentifier`. -/
structure WorkflowExecutionIdentifier where
  project : String
  domain : String
  name : String
deriving DecidableEq, Repr

/-- The message `core.NodeExecutionIdentifier`. -/
structure NodeExecutionIdentifier where
  nodeId : String
  executionId : WorkflowExecutionIdentifier
deriving DecidableEq, Repr

/-- The message `event.TaskExecutionEvent`. -/
structure TaskExecutionEvent where
  taskId : Identifier
  parentNodeExecutionId : NodeExecutionIdentifier
  retryAttempt : Nat
  phase : Phase
  phaseVersion : Nat
  occurredAt : Option Timestamp
  inputUri : String
  outputResult : EventOutputResult
  logs : List TaskLog
  customInfo : Option Fields
deriving DecidableEq

/-- The message `admin.TaskExecutionEventRequest`. -/
structure TaskExecutionEventRequest where
  requestId : String
  event : TaskExecutionEvent
deriving DecidableEq

/-- The generated getter `GetOutputUri`: the empty string unless the oneof holds a URI. -/
def TaskExecutionEvent.GetOutputUri (e : TaskExecutionEvent) : String :=
  match e.outputResult with
  | .outputUri uri => uri
  | _ => ""

/-- The generated getter `GetError`: nil unless the oneof holds an error. -/
def TaskExecutionEvent.GetError (e : TaskExecutionEvent) : Option ExecutionError :=
  match e.outputResult with
  | .error err => some err
  | _ => none

/-- The message `admin.TaskExecutionClosure`. -/
structure TaskExecutionClosure where
  outputResult : ClosureOutputResult
  phase : Phase
  logs : List TaskLog
  startedAt : Option Timestamp
  duration : Option Duration
  createdAt : Option Timestamp
  updatedAt : Option Timestamp
  customInfo : Option Fields
deriving DecidableEq

/-- The generated getter `GetOutputUri` of a closure. -/
def TaskExecutionClosure.GetOutputUri (c : TaskExecutionClosure) : String :=
  match c.outputResult with
  | .outputUri uri => uri
  | _ => ""

/-- The generated getter `GetError` of a closure. -/
def TaskExecutionClosure.GetError (c : TaskExecutionClosure) : Option ExecutionError :=
  match c.outputResult with
  | .error err => some err
  | _ => none

/-- The bytes stored in the `Closure` column: either the encoding of a closure or bytes that
do not decode. -/
inductive Blob where
  | encoded (c : TaskExecutionClosure)
  | malformed
deriving DecidableEq

/-- Library `proto.Marshal` on a closure. It fails only on strings that are not UTF-8 and
on nil oneof wrappers, neither of which a value of the model can hold. -/
def protoMarshal (c : TaskExecutionClosure) : Except String Blob := .ok (.encoded c)

/-- Library `proto.Unmarshal` into a closure: fails on bytes that do not decode. -/
def protoUnmarshal : Blob → Except String TaskExecutionClosure
  | .encoded c => .ok c
  | .malformed => .error "proto: cannot parse invalid wire-format data"

/-- The key `models.TaskKey`. -/
structure TaskKey where
  project : String
  domain : String
  name : String
  version : String
deriving DecidableEq, Repr

/-- The key `models.ExecutionKey`. -/
structure ExecutionKey where
  project : String
  domain : String
  name : String
deriving DecidableEq, Repr

/-- The key `models.NodeExecutionKey`. -/
structure NodeExecutionKey where
  executionKey : ExecutionKey
  nodeID : String
deriving DecidableEq, Repr

/-- The key `models.TaskExecutionKey`. -/
structure TaskExecutionKey where
  taskKey : TaskKey
  nodeExecutionKey : NodeExecutionKey
  retryAttempt : Option Nat
deriving DecidableEq, Repr

/-- The persisted record `models.TaskExecution`. A child node execution is represented by
its key; the transformers only take the length of that list. -/
structure TaskExecution where
  taskExecutionKey : TaskExecutionKey
  phase : String
  phaseVersion : Nat
  inputURI : String
  closure : Blob
  startedAt : Option Time
  taskExecutionCreatedAt : Option Time
  taskExecutionUpdatedAt : Option Time
  duration : Int
  childNodeExecution : List NodeExecutionKey
deriving DecidableEq

/-- The gRPC status codes the transformers can meet. -/
inductive Codes where
  | OK
  | InvalidArgument
  | NotFound
  | Internal
deriving DecidableEq, Repr

/-- The error type `errors.FlyteAdminError`. -/
structure FlyteAdminError where
  code : Codes
  message : String
deriving DecidableEq, Repr

/-- The constructor `errors.NewFlyteAdminErrorf`; the message is the fixed text of the
format string. -/
def NewFlyteAdminErrorf (code : Codes) (message : String) : FlyteAdminError :=
  { code := code, message := message }

/-! ## The transformers -/

/-- The input `CreateTaskExecutionModelInput`. -/
structure CreateTaskExecutionModelInput where
  request : TaskExecutionEventRequest
deriving DecidableEq

/-- What a state-transition handler leaves behind: the record and the closure it was handed,
as mutated, the warnings it logged and the error it returned. -/
structure HandlerResult where
  model : TaskExecution
  closure : TaskExecutionClosure
  warnings : List String
  err : Option FlyteAdminError
deriving DecidableEq

/-- The handler `addTaskStartedState`. -/
def addTaskStartedState (request : TaskExecutionEventRequest) (taskExecutionModel : TaskExecution)
    (closure : TaskExecutionClosure) : HandlerResult :=
  match ptypesTimestamp request.event.occurredAt with
  | .error _ =>
    { model := taskExecutionModel, closure := closure, warnings := [],
      err := some (NewFlyteAdminErrorf Codes.Internal "failed to unmarshal occurredAt with error") }
  | .ok occurredAt =>
    { model := { taskExecutionModel with startedAt := some occurredAt },
      closure := { closure with startedAt := request.event.occurredAt },
      warnings := [], err := none }

/-- The tail of `addTaskTerminalState` (lines 60 to 69): the output result of the closure. -/
def setOutputResult (request : TaskExecutionEventRequest) (closure : TaskExecutionClosure) :
    TaskExecutionClosure :=
  if request.event.GetOutputUri ≠ "" then
    { closure with outputResult := ClosureOutputResult.outputUri request.event.GetOutputUri }
  else
    match request.event.GetError with
    | some e => { closure with outputResult := ClosureOutputResult.error e }
    | none => closure

/-- The handler `addTaskTerminalState`. -/
def addTaskTerminalState (request : TaskExecutionEventRequest) (taskExecutionModel : TaskExecution)
    (closure : TaskExecutionClosure) : HandlerResult :=
  match taskExecutionModel.startedAt with
  | none =>
    { model := taskExecutionModel, closure := setOutputResult request closure,
      warnings := ["task execution is missing StartedAt"], err := none }
  | some startedAt =>
    match ptypesTimestamp request.event.occurredAt with
    | .error _ =>
      { model := taskExecutionModel, closure := closure, warnings := [],
        err := some (NewFlyteAdminErrorf Codes.Internal
          "Failed to parse task execution occurredAt timestamp") }
    | .ok endTime =>
      match ptypesTimestampProto startedAt with
      | .error _ =>
        { model := taskExecutionModel, closure := { closure with startedAt := none },
          warnings := [],
          err := some (NewFlyteAdminErrorf Codes.Internal
            "Failed to parse task execution startedAt timestamp") }
      | .ok ts =>
        let duration := timeSub endTime startedAt
        { model := { taskExecutionModel with duration := duration },
          closure := setOutputResult request
            { closure with startedAt := some ts, duration := some (ptypesDurationProto duration) },
          warnings := [], err := none }

/-- What `CreateTaskExecutionModel` returns, a record or nil and an error or nil, together
with the warnings logged on the way. -/
structure CreateResult where
  taskExecution : Option TaskExecution
  err : Option FlyteAdminError
  warnings : List String
deriving DecidableEq

/-- The zero value of the closure message, which the empty byte string decodes to. -/
def emptyClosure : TaskExecutionClosure :=
  { outputResult := ClosureOutputResult.unset, phase := Phase.UNDEFINED, logs := [],
    startedAt := none, duration := none, createdAt := none, updatedAt := none,
    customInfo := none }

/-- The create path `CreateTaskExecutionModel`. -/
def CreateTaskExecutionModel (input : CreateTaskExecutionModelInput) : CreateResult :=
  let event := input.request.event
  let taskExecution : TaskExecution :=
    { taskExecutionKey :=
        { taskKey :=
            { project := event.taskId.project, domain := event.taskId.domain,
              name := event.taskId.name, version := event.taskId.version },
          nodeExecutionKey :=
            { nodeID := event.parentNodeExecutionId.nodeId,
              executionKey :=
                { project := event.parentNodeExecutionId.executionId.project,
                  domain := event.parentNodeExecutionId.executionId.domain,
                  name := event.parentNodeExecutionId.executionId.name } },
          retryAttempt := some event.retryAttempt },
      phase := event.phase.name,
      phaseVersion := event.phaseVersion,
      inputURI := event.inputUri,
      closure := Blob.encoded emptyClosure,
      startedAt := none,
      taskExecutionCreatedAt := none,
      taskExecutionUpdatedAt := none,
      duration := 0,
      childNodeExecution := [] }
  let closure : TaskExecutionClosure :=
    { outputResult := ClosureOutputResult.unset,
      phase := event.phase,
      updatedAt := event.occurredAt,
      createdAt := event.occurredAt,
      logs := event.logs,
      customInfo := event.customInfo,
      startedAt := none,
      duration := none }
  let eventPhase := event.phase
  let started : HandlerResult :=
    if eventPhase = Phase.RUNNING then addTaskStartedState input.request taskExecution closure
    else { model := taskExecution, closure := closure, warnings := [], err := none }
  match started.err with
  | some err => { taskExecution := none, err := some err, warnings := started.warnings }
  | none =>
    let terminal : HandlerResult :=
      if IsTaskExecutionTerminal event.phase then
        addTaskTerminalState input.request started.model started.closure
      else { model := started.model, closure := started.closure, warnings := [], err := none }
    let warnings := started.warnings ++ terminal.warnings
    match terminal.err with
    | some err => { taskExecution := none, err := some err, warnings := warnings }
    | none =>
      match protoMarshal terminal.closure with
      | .error _ =>
        { taskExecution := none,
          err := some (NewFlyteAdminErrorf Codes.Internal
            "failed to marshal task execution closure with error"),
          warnings := warnings }
      | .ok marshaledClosure =>
        match ptypesTimestamp event.occurredAt with
        | .error _ =>
          { taskExecution := none,
            err := some (NewFlyteAdminErrorf Codes.Internal "failed to read event timestamp"),
            warnings := warnings }
        | .ok taskExecutionCreatedAt =>
          { taskExecution := some
              { terminal.model with
                closure := marshaledClosure,
                taskExecutionCreatedAt := some taskExecutionCreatedAt,
                taskExecutionUpdatedAt := some taskExecutionCreatedAt },
            err := none, warnings := warnings }

/-- A Go `map[string]V`, as the list of its entries. -/
abbrev GoMap (V : Type) := List (String × V)

/-- Go `m[k] = v`: replaces the entry of the key, or adds one. -/
def GoMap.insert {V : Type} (m : GoMap V) (k : String) (v : V) : GoMap V :=
  match m with
  | [] => [(k, v)]
  | (key, w) :: rest => if key = k then (key, v) :: rest else (key, w) :: GoMap.insert rest k v

/-- Go `_, ok := m[k]`. -/
def GoMap.contains {V : Type} (m : GoMap V) (k : String) : Bool :=
  match m with
  | [] => false
  | (key, _) :: rest => if key = k then true else GoMap.contains rest k

/-- The log merge `mergeLogs`. -/
def mergeLogs (existing latest : List TaskLog) : List TaskLog :=
  if latest.length = 0 then existing
  else if existing.length = 0 then latest
  else
    let latestSet : GoMap TaskLog :=
      latest.foldl (fun set latestLog => GoMap.insert set latestLog.uri latestLog) []
    existing.foldl
      (fun logs existingLog =>
        if GoMap.contains latestSet existingLog.uri then logs else logs ++ [existingLog])
      latest

/-- The metadata merge `mergeCustom`. -/
def mergeCustom (existing latest : Option Fields) : Except String (Option Fields) :=
  match existing with
  | none => .ok latest
  | some existingStruct =>
    match latest with
    | none => .ok existing
    | some latestStruct =>
      match protojsonMarshal existingStruct with
      | .error e => .error e
      | .ok jsonExisting =>
        match protojsonMarshal latestStruct with
        | .error e => .error e
        | .ok jsonLatest =>
          match createMergePatch jsonEmpty jsonLatest with
          | .error e => .error e
          | .ok patch =>
            match mergePatch jsonExisting patch with
            | .error e => .error e
            | .ok custom =>
              match protojsonUnmarshal custom with
              | .error e => .error e
              | .ok response => .ok (some response)

/-- What `UpdateTaskExecutionModel` leaves behind: the record as mutated through the
pointer, the warnings logged and the error returned. -/
structure UpdateResult where
  model : TaskExecution
  warnings : List String
  err : Option FlyteAdminError
deriving DecidableEq

/-- The update path `UpdateTaskExecutionModel`. -/
def UpdateTaskExecutionModel (request : TaskExecutionEventRequest)
    (taskExecutionModel : TaskExecution) : UpdateResult :=
  match protoUnmarshal taskExecutionModel.closure with
  | .error _ =>
    { model := taskExecutionModel, warnings := [],
      err := some (NewFlyteAdminErrorf Codes.Internal
        "failed to unmarshal task execution closure with error") }
  | .ok decoded =>
    let existingTaskPhase := taskExecutionModel.phase
    let model1 : TaskExecution :=
      { taskExecutionModel with
        phase := request.event.phase.name, phaseVersion := request.event.phaseVersion }
    let closure1 : TaskExecutionClosure :=
      { decoded with
        phase := request.event.phase,
        updatedAt := request.event.occurredAt,
        logs := mergeLogs decoded.logs request.event.logs }
    let started : HandlerResult :=
      if (existingTaskPhase = Phase.QUEUED.name ∨ existingTaskPhase = Phase.UNDEFINED.name)
          ∧ model1.phase = Phase.RUNNING.name then
        addTaskStartedState request model1 closure1
      else { model := model1, closure := closure1, warnings := [], err := none }
    match started.err with
    | some err => { model := started.model, warnings := started.warnings, err := some err }
    | none =>
      let terminal : HandlerResult :=
        if IsTaskExecutionTerminal request.event.phase then
          addTaskTerminalState request started.model started.closure
        else { model := started.model, closure := started.closure, warnings := [], err := none }
      let warnings := started.warnings ++ terminal.warnings
      match terminal.err with
      | some err => { model := terminal.model, warnings := warnings, err := some err }
      | none =>
        match mergeCustom terminal.closure.customInfo request.event.customInfo with
        | .error _ =>
          { model := terminal.model, warnings := warnings,
            err := some (NewFlyteAdminErrorf Codes.Internal
              "failed to merge task even custom_info with error") }
        | .ok customInfo =>
          match protoMarshal { terminal.closure with customInfo := customInfo } with
          | .error _ =>
            { model := terminal.model, warnings := warnings,
              err := some (NewFlyteAdminErrorf Codes.Internal
                "failed to marshal task execution closure with error") }
          | .ok marshaledClosure =>
            let model2 : TaskExecution := { terminal.model with closure := marshaledClosure }
            match ptypesTimestamp request.event.occurredAt with
            | .error _ =>
              { model := model2, warnings := warnings,
                err := some (NewFlyteAdminErrorf Codes.Internal
                  "failed to parse updated at timestamp") }
            | .ok updatedAt =>
              { model := { model2 with taskExecutionUpdatedAt := some updatedAt },
                warnings := warnings, err := none }

/-- The closure a record stores, when its blob decodes. -/
def TaskExecution.decodedClosure (m : TaskExecution) : Option TaskExecutionClosure :=
  match protoUnmarshal m.closure with
  | .ok c => some c
  | .error _ => none

/-- Folding a sequence of events into a record by successive calls of
`UpdateTaskExecutionModel`, each of which has to succeed. -/
def applyEvents : List TaskExecutionEventRequest → TaskExecution → Option TaskExecution
  | [], m => some m
  | request :: rest, m =>
    match (UpdateTaskExecutionModel request m).err with
    | some _ => none
    | none => applyEvents rest (UpdateTaskExecutionModel request m).model

/-- The message `core.TaskExecutionIdentifier`. -/
structure TaskExecutionIdentifier where
  taskId : Identifier
  nodeExecutionId : NodeExecutionIdentifier
  retryAttempt : Nat
deriving DecidableEq, Repr

/-- The descriptor `admin.TaskExecution` handed to API consumers. -/
structure AdminTaskExecution where
  id : TaskExecutionIdentifier
  inputUri : String
  closure : Option TaskExecutionClosure
  isParent : Bool
deriving DecidableEq

/-- What a call of `FromTaskExecutionModel` ends in: a descriptor, an error, or the run-time
panic of dereferencing the nil `RetryAttempt` pointer of the record. -/
inductive FromResult where
  | returned (taskExecution : AdminTaskExecution)
  | failed (err : FlyteAdminError)
  | nilDereference
deriving DecidableEq

/-- The read path `FromTaskExecutionModel`. The record is passed by value. -/
def FromTaskExecutionModel (taskExecutionModel : TaskExecution) : FromResult :=
  match protoUnmarshal taskExecutionModel.closure with
  | .error _ =>
    FromResult.failed (NewFlyteAdminErrorf Codes.Internal "failed to unmarshal closure")
  | .ok closure =>
    match taskExecutionModel.taskExecutionKey.retryAttempt with
    | none => FromResult.nilDereference
    | some retryAttempt =>
      let taskExecution : AdminTaskExecution :=
        { id :=
            { taskId :=
                { resourceType := ResourceType.TASK,
                  project := taskExecutionModel.taskExecutionKey.taskKey.project,
                  domain := taskExecutionModel.taskExecutionKey.taskKey.domain,
                  name := taskExecutionModel.taskExecutionKey.taskKey.name,
                  version := taskExecutionModel.taskExecutionKey.taskKey.version },
              nodeExecutionId :=
                { nodeId := taskExecutionModel.taskExecutionKey.nodeExecutionKey.nodeID,
                  executionId :=
                    { project :=
                        taskExecutionModel.taskExecutionKey.nodeExecutionKey.executionKey.project,
                      domain :=
                        taskExecutionModel.taskExecutionKey.nodeExecutionKey.executionKey.domain,
                      name :=
                        taskExecutionModel.taskExecutionKey.nodeExecutionKey.executionKey.name } },
              retryAttempt := retryAttempt },
          inputUri := taskExecutionModel.inputURI,
          closure := some closure,
          isParent := false }
      if taskExecutionModel.childNodeExecution.length > 0 then
        FromResult.returned { taskExecution with isParent := true }
      else FromResult.returned taskExecution

/-- A record of the sample task execution with two child node executions. -/
def parentRecord : TaskExecution :=
  { taskExecutionKey :=
      { taskKey := { project := "project", domain := "domain", name := "task", version := "v1" },
        nodeExecutionKey :=
          { nodeID := "node",
            executionKey := { project := "project", domain := "domain", name := "execution" } },
        retryAttempt := some 0 },
    phase := "RUNNING",
    phaseVersion := 0,
    inputURI := "s3://bucket/inputs",
    closure := Blob.encoded emptyClosure,
    startedAt := some 200000000000,
    taskExecutionCreatedAt := some 0,
    taskExecutionUpdatedAt := some 0,
    duration := 0,
    childNodeExecution :=
      [{ nodeID := "child-1",
         executionKey := { project := "project", domain := "domain", name := "execution" } },
       { nodeID := "child-2",
         executionKey := { project := "project", domain := "domain", name := "execution" } }] }

/-- The URIs of a list of logs, in order. -/
def logUris (logs : List TaskLog) : List String := logs.map TaskLog.uri

/-- The effect of one field of a merge patch on a document: one turn of the loop of
`mergeDocs`. -/
def stepDoc (doc : Fields) (key : String) (v : Value) : Fields :=
  match v with
  | .null => doc.erase key
  | .struct patch =>
    match doc.lookup key with
    | some (.struct cur) => doc.set key (.struct (mergeDocs cur patch))
    | _ => doc.set key (.struct (mergeDocs .nil patch))
  | other => doc.set key other

/-- A scalar or an array: a number, a string, a boolean or a list. -/
def Value.isScalarOrArray : Value → Bool
  | .number _ => true
  | .string _ => true
  | .bool _ => true
  | .list _ => true
  | _ => false

/-- The document with the number `1` under `x` and `2` under `y`. -/
def docXY : Fields :=
  .cons "x" (.number (.finite 1)) (.cons "y" (.number (.finite 2)) .nil)

/-- The document with null under `y` and the number `3` under `z`. -/
def docYZ : Fields :=
  .cons "y" .null (.cons "z" (.number (.finite 3)) .nil)

/-- The document with the number `1` under `x` and `3` under `z`. -/
def docXZ : Fields :=
  .cons "x" (.number (.finite 1)) (.cons "z" (.number (.finite 3)) .nil)

/-! ### The stages of the update path

`UpdateTaskExecutionModel` runs four stages one after the other. The definitions below
name the intermediate values of its body, so that each stage can be reasoned about on its
own; `UpdateTaskExecutionModel_stages` shows that they compose to the function. -/

/-- Lines 207 and 208: the record with the phase and phase version of the event. -/
def updateModel1 (request : TaskExecutionEventRequest) (m : TaskExecution) : TaskExecution :=
  { m with phase := request.event.phase.name, phaseVersion := request.event.phaseVersion }

/-- Lines 209 to 211: the closure with the phase, time and merged logs of the event. -/
def updateClosure1 (request : TaskExecutionEventRequest) (decoded : TaskExecutionClosure) :
    TaskExecutionClosure :=
  { decoded with
    phase := request.event.phase,
    updatedAt := request.event.occurredAt,
    logs := mergeLogs decoded.logs request.event.logs }

/-- The guard of line 212: the previous phase is QUEUED or UNDEFINED and the new one is
RUNNING. -/
def startTransition (request : TaskExecutionEventRequest) (m : TaskExecution) : Prop :=
  (m.phase = Phase.QUEUED.name ∨ m.phase = Phase.UNDEFINED.name)
    ∧ request.event.phase.name = Phase.RUNNING.name

instance (request : TaskExecutionEventRequest) (m : TaskExecution) :
    Decidable (startTransition request m) := by
  unfold startTransition
  infer_instance

/-- Lines 212 to 217: the start handler, when the guard holds. -/
def startStage (request : TaskExecutionEventRequest) (m : TaskExecution)
    (decoded : TaskExecutionClosure) : HandlerResult :=
  if startTransition request m then
    addTaskStartedState request (updateModel1 request m) (updateClosure1 request decoded)
  else
    { model := updateModel1 request m, closure := updateClosure1 request decoded,
      warnings := [], err := none }

/-- Lines 219 to 224: the terminal handler, when the phase of the event is terminal. -/
def terminalStage (request : TaskExecutionEventRequest) (started : HandlerResult) :
    HandlerResult :=
  if IsTaskExecutionTerminal request.event.phase then
    addTaskTerminalState request started.model started.closure
  else { model := started.model, closure := started.closure, warnings := [], err := none }

/-- Lines 225 to 240: the metadata merge, the encoding of the closure and the update time. -/
def finishStage (request : TaskExecutionEventRequest) (model : TaskExecution)
    (closure : TaskExecutionClosure) (warnings : List String) : UpdateResult :=
  match mergeCustom closure.customInfo request.event.customInfo with
  | .error _ =>
    { model := model, warnings := warnings,
      err := some (NewFlyteAdminErrorf Codes.Internal
        "failed to merge task even custom_info with error") }
  | .ok customInfo =>
    match protoMarshal { closure with customInfo := customInfo } with
    | .error _ =>
      { model := model, warnings := warnings,
        err := some (NewFlyteAdminErrorf Codes.Internal
          "failed to marshal task execution closure with error") }
    | .ok marshaledClosure =>
      match ptypesTimestamp request.event.occurredAt with
      | .error _ =>
        { model := { model with closure := marshaledClosure }, warnings := warnings,
          err := some (NewFlyteAdminErrorf Codes.Internal
            "failed to parse updated at timestamp") }
      | .ok updatedAt =>
        { model := { model with
            closure := marshaledClosure, taskExecutionUpdatedAt := some updatedAt },
          warnings := warnings, err := none }

/-- The stages of `UpdateTaskExecutionModel` after the closure has been decoded. -/
def updateDecoded (request : TaskExecutionEventRequest) (m : TaskExecution)
    (decoded : TaskExecutionClosure) : UpdateResult :=
  match (startStage request m decoded).err with
  | some err =>
    { model := (startStage request m decoded).model,
      warnings := (startStage request m decoded).warnings, err := some err }
  | none =>
    match (terminalStage request (startStage request m decoded)).err with
    | some err =>
      { model := (terminalStage request (startStage request m decoded)).model,
        warnings := (startStage request m decoded).warnings
          ++ (terminalStage request (startStage request m decoded)).warnings,
        err := some err }
    | none =>
      finishStage request (terminalStage request (startStage request m decoded)).model
        (terminalStage request (startStage request m decoded)).closure
        ((startStage request m decoded).warnings
          ++ (terminalStage request (startStage request m decoded)).warnings)

/-! ### Sample events and records -/

/-- A timestamp at a whole number of seconds after the epoch. -/
def tsAt (secs : Int) : Timestamp := { seconds := secs, nanos := 0 }

/-- An event request for one fixed task execution, with the given phase, occurrence time,
output result, logs and custom metadata. -/
def sampleRequest (phase : Phase) (occurredAt : Option Timestamp)
    (outputResult : EventOutputResult) (logs : List TaskLog) (customInfo : Option Fields) :
    TaskExecutionEventRequest :=
  { requestId := "request",
    event :=
      { taskId := { project := "project", domain := "domain", name := "task", version := "v1" },
        parentNodeExecutionId :=
          { nodeId := "node",
            executionId := { project := "project", domain := "domain", name := "execution" } },
        retryAttempt := 0,
        phase := phase,
        phaseVersion := 0,
        occurredAt := occurredAt,
        inputUri := "s3://bucket/inputs",
        outputResult := outputResult,
        logs := logs,
        customInfo := customInfo } }

/-- A record of the same task execution with the given phase string, start time, duration
and closure blob. -/
def sampleRecord (phase : String) (startedAt : Option Time) (duration : Int) (closure : Blob) :
    TaskExecution :=
  { taskExecutionKey :=
      { taskKey := { project := "project", domain := "domain", name := "task", version := "v1" },
        nodeExecutionKey :=
          { nodeID := "node",
            executionKey := { project := "project", domain := "domain", name := "execution" } },
        retryAttempt := some 0 },
    phase := phase,
    phaseVersion := 0,
    inputURI := "s3://bucket/inputs",
    closure := closure,
    startedAt := startedAt,
    taskExecutionCreatedAt := some 0,
    taskExecutionUpdatedAt := some 0,
    duration := duration,
    childNodeExecution := [] }

/-- A QUEUED event at second 100. -/
def queuedRequest : TaskExecutionEventRequest :=
  sampleRequest Phase.QUEUED (some (tsAt 100)) EventOutputResult.unset [] none

/-- A RUNNING event at second 200. -/
def runningRequest : TaskExecutionEventRequest :=
  sampleRequest Phase.RUNNING (some (tsAt 200)) EventOutputResult.unset [] none

/-- A RUNNING event at second 300. -/
def runningAgainRequest : TaskExecutionEventRequest :=
  sampleRequest Phase.RUNNING (some (tsAt 300)) EventOutputResult.unset [] none

/-- A SUCCEEDED event at second 400 with an output location. -/
def succeededRequest : TaskExecutionEventRequest :=
  sampleRequest Phase.SUCCEEDED (some (tsAt 400)) (EventOutputResult.outputUri "s3://bucket/out")
    [] none

/-- A record in phase QUEUED that has not started, with an empty closure. -/
def queuedRecord : TaskExecution :=
  sampleRecord "QUEUED" none 0 (Blob.encoded emptyClosure)

/-- A SUCCEEDED event at second 10 000 000 000 (in the year 2286). -/
def farFutureRequest : TaskExecutionEventRequest :=
  sampleRequest Phase.SUCCEEDED (some (tsAt 10000000000)) EventOutputResult.unset [] none

/-- A record in phase RUNNING that started at the epoch. -/
def startedAtEpochRecord : TaskExecution :=
  sampleRecord "RUNNING" (some 0) 0 (Blob.encoded emptyClosure)

/-- A record in phase RUNNING that started at second 200. -/
def runningRecord : TaskExecution :=
  sampleRecord "RUNNING" (some 200000000000) 0 (Blob.encoded emptyClosure)

/-! ### The stages of the create path -/

/-- Lines 73 to 95: the record built from the identity of the event. -/
def createModel0 (input : CreateTaskExecutionModelInput) : TaskExecution :=
  { taskExecutionKey :=
      { taskKey :=
          { project := input.request.event.taskId.project,
            domain := input.request.event.taskId.domain,
            name := input.request.event.taskId.name,
            version := input.request.event.taskId.version },
        nodeExecutionKey :=
          { nodeID := input.request.event.parentNodeExecutionId.nodeId,
            executionKey :=
              { project := input.request.event.parentNodeExecutionId.executionId.project,
                domain := input.request.event.parentNodeExecutionId.executionId.domain,
                name := input.request.event.parentNodeExecutionId.executionId.name } },
        retryAttempt := some input.request.event.retryAttempt },
    phase := input.request.event.phase.name,
    phaseVersion := input.request.event.phaseVersion,
    inputURI := input.request.event.inputUri,
    closure := Blob.encoded emptyClosure,
    startedAt := none,
    taskExecutionCreatedAt := none,
    taskExecutionUpdatedAt := none,
    duration := 0,
    childNodeExecution := [] }

/-- Lines 97 to 103: the closure built from the event. -/
def createClosure0 (input : CreateTaskExecutionModelInput) : TaskExecutionClosure :=
  { outputResult := ClosureOutputResult.unset,
    phase := input.request.event.phase,
    updatedAt := input.request.event.occurredAt,
    createdAt := input.request.event.occurredAt,
    logs := input.request.event.logs,
    customInfo := input.request.event.customInfo,
    startedAt := none,
    duration := none }

/-- Lines 110 to 115: the start handler, when the first event is RUNNING. -/
def createStartStage (input : CreateTaskExecutionModelInput) : HandlerResult :=
  if input.request.event.phase = Phase.RUNNING then
    addTaskStartedState input.request (createModel0 input) (createClosure0 input)
  else
    { model := createModel0 input, closure := createClosure0 input, warnings := [], err := none }

/-- A SUCCEEDED event whose occurrence time is missing. -/
def untimedRequest : TaskExecutionEventRequest :=
  sampleRequest Phase.SUCCEEDED none EventOutputResult.unset [] none

/-- A phase string is none of the two that open the start transition. -/
def notQueuedOrUndefined (phase : String) : Prop :=
  phase ≠ Phase.QUEUED.name ∧ phase ≠ Phase.UNDEFINED.name

/-- A SUCCEEDED event at second 400 whose custom metadata maps `y` to null. -/
def succeededNullRequest : TaskExecutionEventRequest :=
  sampleRequest Phase.SUCCEEDED (some (tsAt 400)) EventOutputResult.unset []
    (some (.cons "y" .null .nil))

/-- Two logs with the same URI, as an event may carry them. -/
def duplicateLatestLogs : List TaskLog :=
  [{ uri := "a", name := "n1" }, { uri := "a", name := "n2" }]

/-- One log of an earlier event. -/
def earlierLogs : List TaskLog := [{ uri := "c", name := "old" }]

/-- The existing log list of the overlap example of the spec: URI `a` under the name `old`. -/
def overlapExisting : List TaskLog := [{ uri := "a", name := "old" }]

/-- The latest log list of the overlap example of the spec: URI `a` under the name `new`
and URI `b` under the name `new2`. -/
def overlapLatest : List TaskLog :=
  [{ uri := "a", name := "new" }, { uri := "b", name := "new2" }]

/-- The entries of a log list that carry the given URI, in order. -/
def logsWithUri (uri : String) (logs : List TaskLog) : List TaskLog :=
  logs.filter (fun l => decide (l.uri = uri))

/-- A document that `protojson.Marshal` rejects: the number under `x` is NaN. -/
def docNaN : Fields := .cons "x" (.number .nan) .nil

/-- The merge as the spec words it: the latest document applied directly, as an RFC 7396
merge patch, to the existing document, between the same encoding and decoding steps as
`mergeCustom` but without deriving a patch from the empty document first. -/
def applyLatestAsMergePatch (existing latest : Fields) : Except String (Option Fields) :=
  match protojsonMarshal existing with
  | .error e => .error e
  | .ok jsonExisting =>
    match protojsonMarshal latest with
    | .error e => .error e
    | .ok jsonLatest =>
      match mergePatch jsonExisting jsonLatest with
      | .error e => .error e
      | .ok custom =>
        match protojsonUnmarshal custom with
        | .error e => .error e
        | .ok response => .ok (some response)

/-- A document that holds the object `p:1, q:2` under `n`. -/
def docNested : Fields :=
  .cons "n" (.struct (.cons "p" (.number (.finite 1)) (.cons "q" (.number (.finite 2)) .nil)))
    .nil

/-- A document that holds the object `q:null, r:3` under `n`. -/
def docNestedPatch : Fields :=
  .cons "n" (.struct (.cons "q" .null (.cons "r" (.number (.finite 3)) .nil))) .nil

/-- A record in phase SUCCEEDED with phase version 7 that started at second 200. -/
def succeededRecord : TaskExecution :=
  { sampleRecord "SUCCEEDED" (some 200000000000) 0 (Blob.encoded emptyClosure) with
    phaseVersion := 7 }

/-- A RUNNING event whose occurrence time is missing. -/
def untimedRunningRequest : TaskExecutionEventRequest :=
  sampleRequest Phase.RUNNING none EventOutputResult.unset [] none

/-- A RUNNING event at second 200 with one log and custom metadata. -/
def runningDetailedRequest : TaskExecutionEventRequest :=
  sampleRequest Phase.RUNNING (some (tsAt 200)) EventOutputResult.unset overlapLatest
    (some docXY)

/-- A RUNNING event at second 200 whose custom metadata maps `y` to null. -/
def runningNullRequest : TaskExecutionEventRequest :=
  sampleRequest Phase.RUNNING (some (tsAt 200)) EventOutputResult.unset []
    (some (.cons "y" .null .nil))

/-! ## Log merge -/

theorem GoMap.contains_insert {V : Type} (m : GoMap V) (k k2 : String) (v : V) :
    GoMap.contains (GoMap.insert m k v) k2 = (decide (k = k2) || GoMap.contains m k2) := by
  induction m with
  | nil => simp [GoMap.insert, GoMap.contains]
  | cons hd tl ih =>
    obtain ⟨key, w⟩ := hd
    by_cases h : key = k
    · subst h
      simp [GoMap.insert, GoMap.contains]
    · by_cases h2 : key = k2
      · subst h2
        simp [GoMap.insert, GoMap.contains, h]
      · simp [GoMap.insert, GoMap.contains, h, h2, ih]

theorem latestSet_contains (latest : List TaskLog) (acc : GoMap TaskLog) (k : String) :
    GoMap.contains
        (latest.foldl (fun set latestLog => GoMap.insert set latestLog.uri latestLog) acc) k
      = (GoMap.contains acc k || decide (k ∈ logUris latest)) := by
  induction latest generalizing acc with
  | nil => simp [logUris]
  | cons l ls ih =>
    simp only [List.foldl_cons, ih, GoMap.contains_insert]
    by_cases h : l.uri = k
    · simp [logUris, h]
    · have h2 : ¬ k = l.uri := fun e => h e.symm
      simp [logUris, h, h2] at *

theorem appendLoop_eq (p : TaskLog → Bool) (existing acc : List TaskLog) :
    existing.foldl (fun logs existingLog => if p existingLog then logs else logs ++ [existingLog])
        acc
      = acc ++ existing.filter (fun e => !p e) := by
  induction existing generalizing acc with
  | nil => simp
  | cons e es ih =>
    simp only [List.foldl_cons, ih]
    by_cases h : p e <;> simp [h, List.filter_cons]

/-- The closed form of `mergeLogs`: the latest list followed by the existing entries whose
URI does not occur in the latest list. -/
theorem mergeLogs_closed (existing latest : List TaskLog) :
    mergeLogs existing latest
      = latest ++ existing.filter (fun e => !decide (e.uri ∈ logUris latest)) := by
  unfold mergeLogs
  cases latest with
  | nil => simp [logUris]
  | cons l ls =>
    cases existing with
    | nil => simp
    | cons e es =>
      have hlen1 : ¬ (l :: ls).length = 0 := by simp
      have hlen2 : ¬ (e :: es).length = 0 := by simp
      rw [if_neg hlen1, if_neg hlen2]
      simp only []
      rw [appendLoop_eq]
      congr 1
      apply List.filter_congr
      intro x _
      rw [latestSet_contains]
      simp [GoMap.contains]

/-- Claim C1: for every pair of log lists, `mergeLogs existing latest` is `latest` followed
by exactly those entries of `existing` whose URI does not occur in `latest`, in their
original order; it returns `existing` when `latest` is empty and `latest` when `existing`
is empty. -/
theorem mergeLogs_spec (existing latest : List TaskLog) :
    mergeLogs existing latest
        = latest ++ existing.filter (fun e => !decide (e.uri ∈ logUris latest))
      ∧ mergeLogs existing [] = existing
      ∧ mergeLogs [] latest = latest := by
  refine ⟨mergeLogs_closed existing latest, ?_, ?_⟩
  · simp [mergeLogs]
  · rw [mergeLogs_closed]; simp

/-! ## Metadata merge -/

theorem Fields.lookup_erase_self (k : String) : ∀ doc : Fields, (doc.erase k).lookup k = none
  | .nil => rfl
  | .cons key v rest => by
    by_cases h : key = k
    · simp [Fields.erase, h, Fields.lookup_erase_self k rest]
    · simp [Fields.erase, Fields.lookup, h, Fields.lookup_erase_self k rest]

theorem Fields.lookup_erase_other (k k2 : String) (hne : k ≠ k2) :
    ∀ doc : Fields, (doc.erase k).lookup k2 = doc.lookup k2
  | .nil => rfl
  | .cons key v rest => by
    by_cases h : key = k
    · subst h
      simp [Fields.erase, Fields.lookup, hne, Fields.lookup_erase_other key k2 hne rest]
    · by_cases h2 : key = k2
      · subst h2
        simp [Fields.erase, Fields.lookup, h]
      · simp [Fields.erase, Fields.lookup, h, h2, Fields.lookup_erase_other k k2 hne rest]

theorem Fields.lookup_set_self (k : String) (v : Value) :
    ∀ doc : Fields, (doc.set k v).lookup k = some v
  | .nil => by simp [Fields.set, Fields.lookup]
  | .cons key w rest => by
    by_cases h : key = k
    · simp [Fields.set, Fields.lookup, h]
    · simp [Fields.set, Fields.lookup, h, Fields.lookup_set_self k v rest]

theorem Fields.lookup_set_other (k k2 : String) (v : Value) (hne : k ≠ k2) :
    ∀ doc : Fields, (doc.set k v).lookup k2 = doc.lookup k2
  | .nil => by simp [Fields.set, Fields.lookup, hne]
  | .cons key w rest => by
    by_cases h : key = k
    · subst h
      simp [Fields.set, Fields.lookup, hne]
    · by_cases h2 : key = k2
      · subst h2
        simp [Fields.set, Fields.lookup, h]
      · simp [Fields.set, Fields.lookup, h, h2, Fields.lookup_set_other k k2 v hne rest]

theorem mergeDocs_cons (doc : Fields) (key : String) (v : Value) (rest : Fields) :
    mergeDocs doc (.cons key v rest) = mergeDocs (stepDoc doc key v) rest := by
  cases v with
  | struct patch =>
    simp only [mergeDocs, stepDoc]
    split <;> rfl
  | _ => simp [mergeDocs, stepDoc]

theorem stepDoc_lookup_other (doc : Fields) (key k : String) (v : Value) (hne : key ≠ k) :
    (stepDoc doc key v).lookup k = doc.lookup k := by
  cases v with
  | null => exact Fields.lookup_erase_other key k hne doc
  | struct patch =>
    simp only [stepDoc]
    split <;> exact Fields.lookup_set_other key k _ hne doc
  | _ => exact Fields.lookup_set_other key k _ hne doc

/-- A key the patch does not mention keeps what the document maps it to. -/
theorem lookup_mergeDocs_absent (k : String) :
    ∀ (patch doc : Fields), patch.lookup k = none → (mergeDocs doc patch).lookup k = doc.lookup k
  | .nil, doc, _ => by simp [mergeDocs]
  | .cons key v rest, doc, h => by
    have hne : key ≠ k := by
      intro e
      simp [Fields.lookup, e] at h
    have hrest : rest.lookup k = none := by
      simpa [Fields.lookup, hne] using h
    rw [mergeDocs_cons, lookup_mergeDocs_absent k rest _ hrest, stepDoc_lookup_other _ _ _ _ hne]

/-- A key the patch mentions is, after the merge, what the one turn of the loop for that
field makes of it, when the patch holds no key twice. -/
theorem lookup_mergeDocs_present (k : String) (v : Value) :
    ∀ (patch doc : Fields), patch.keysUnique = true → patch.lookup k = some v →
      ∃ doc2 : Fields, (mergeDocs doc patch).lookup k = (stepDoc doc2 k v).lookup k
  | .nil, _, _, h => by simp [Fields.lookup] at h
  | .cons key w rest, doc, hu, h => by
    simp only [Fields.keysUnique, Bool.and_eq_true, Bool.not_eq_true', Fields.hasKey] at hu
    by_cases hk : key = k
    · subst hk
      have hv : w = v := by simpa [Fields.lookup] using h
      subst hv
      have hrest : rest.lookup key = none := by
        cases hr : rest.lookup key with
        | none => rfl
        | some x => simp [hr] at hu
      exact ⟨doc, by rw [mergeDocs_cons, lookup_mergeDocs_absent key rest _ hrest]⟩
    · have hrest : rest.lookup k = some v := by simpa [Fields.lookup, hk] using h
      rw [mergeDocs_cons]
      exact lookup_mergeDocs_present k v rest _ hu.2 hrest

theorem diffChanged_nil : ∀ modified : Fields, diffChanged .nil modified = modified
  | .nil => rfl
  | .cons key v rest => by
    cases v <;> simp [diffChanged, Fields.lookup, diffChanged_nil rest]

theorem Fields.append_nil : ∀ fs : Fields, fs.append .nil = fs
  | .nil => rfl
  | .cons key v rest => by simp [Fields.append, Fields.append_nil rest]

/-- The patch derived from the empty document is the modified document itself. -/
theorem createMergePatch_jsonEmpty (modified : Fields) :
    createMergePatch jsonEmpty modified = .ok modified := by
  simp [createMergePatch, jsonEmpty, diffChanged_nil, diffDeleted, Fields.append_nil]

/-- When both documents are present and the merge succeeds, its result is the latest
document applied as a merge patch to the existing one. -/
theorem mergeCustom_ok_eq (existing latest : Fields) (r : Option Fields)
    (h : mergeCustom (some existing) (some latest) = .ok r) :
    r = some (mergeDocs existing latest) := by
  unfold mergeCustom at h
  simp only [protojsonMarshal, createMergePatch_jsonEmpty, mergePatch, protojsonUnmarshal] at h
  by_cases he : existing.encodable = true
  · by_cases hl : latest.encodable = true
    · simp [he, hl] at h
      exact h.symm
    · simp [he, hl] at h
  · simp [he] at h

/-- Claim C2: for present documents `existing` and `latest` on which `mergeCustom` succeeds
and every top-level key `k`: a key that `latest` maps to null is absent from the result; a
key absent from `latest` is mapped by the result exactly as by `existing`; a key that
`latest` maps to a scalar or an array is mapped by the result to the value of `latest`.
The documents x:1, y:2 and y:null, z:3 merge to x:1, z:3. -/
theorem mergeCustom_per_key (existing latest : Fields) (r : Option Fields) (k : String)
    (hu : latest.keysUnique = true)
    (h : mergeCustom (some existing) (some latest) = .ok r) :
    (∃ result : Fields, r = some result
      ∧ (latest.lookup k = some Value.null → result.lookup k = none)
      ∧ (latest.lookup k = none → result.lookup k = existing.lookup k)
      ∧ (∀ v : Value, latest.lookup k = some v → v.isScalarOrArray = true →
          result.lookup k = some v))
    ∧ mergeCustom (some docXY) (some docYZ) = .ok (some docXZ) := by
  refine ⟨⟨mergeDocs existing latest, mergeCustom_ok_eq existing latest r h, ?_, ?_, ?_⟩, rfl⟩
  · intro hk
    obtain ⟨doc2, hd⟩ := lookup_mergeDocs_present k Value.null latest existing hu hk
    rw [hd]
    exact Fields.lookup_erase_self k doc2
  · intro hk
    exact lookup_mergeDocs_absent k latest existing hk
  · intro v hk hv
    obtain ⟨doc2, hd⟩ := lookup_mergeDocs_present k v latest existing hu hk
    rw [hd]
    cases v with
    | number n => exact Fields.lookup_set_self k _ doc2
    | string n => exact Fields.lookup_set_self k _ doc2
    | bool n => exact Fields.lookup_set_self k _ doc2
    | list n => exact Fields.lookup_set_self k _ doc2
    | unset => simp [Value.isScalarOrArray] at hv
    | null => simp [Value.isScalarOrArray] at hv
    | struct n => simp [Value.isScalarOrArray] at hv

/-- Witness of C2 at the documents x:1, y:2 and y:null, z:3 and the key `y`. -/
theorem mergeCustom_per_key_witness :
    docYZ.keysUnique = true
      ∧ mergeCustom (some docXY) (some docYZ) = .ok (some docXZ)
      ∧ docYZ.lookup "y" = some Value.null
      ∧ docXZ.lookup "y" = none :=
  ⟨by decide, (mergeCustom_per_key docXY docYZ (some docXZ) "y" (by decide) rfl).2,
    by decide, by decide⟩

/-! ## The update path -/

/-- The body of `UpdateTaskExecutionModel` is the composition of its stages. -/
theorem UpdateTaskExecutionModel_stages (request : TaskExecutionEventRequest)
    (m : TaskExecution) :
    UpdateTaskExecutionModel request m =
      match protoUnmarshal m.closure with
      | .error _ =>
        { model := m, warnings := [],
          err := some (NewFlyteAdminErrorf Codes.Internal
            "failed to unmarshal task execution closure with error") }
      | .ok decoded => updateDecoded request m decoded := by
  unfold UpdateTaskExecutionModel
  cases protoUnmarshal m.closure with
  | error e => rfl
  | ok decoded => rfl

theorem Phase.name_eq_running (p : Phase) :
    p.name = Phase.RUNNING.name ↔ p = Phase.RUNNING := by
  cases p <;> decide

theorem terminal_not_running (p : Phase) (h : IsTaskExecutionTerminal p = true) :
    p ≠ Phase.RUNNING := by
  cases p <;> simp [IsTaskExecutionTerminal] at h ⊢

theorem startStage_of_transition (request : TaskExecutionEventRequest) (m : TaskExecution)
    (decoded : TaskExecutionClosure) (t : Time) (hs : startTransition request m)
    (ht : ptypesTimestamp request.event.occurredAt = .ok t) :
    startStage request m decoded =
      { model := { updateModel1 request m with startedAt := some t },
        closure := { updateClosure1 request decoded with startedAt := request.event.occurredAt },
        warnings := [], err := none } := by
  simp [startStage, hs, addTaskStartedState, ht]

theorem startStage_of_no_transition (request : TaskExecutionEventRequest) (m : TaskExecution)
    (decoded : TaskExecutionClosure) (hs : ¬ startTransition request m) :
    startStage request m decoded =
      { model := updateModel1 request m, closure := updateClosure1 request decoded,
        warnings := [], err := none } := by
  simp [startStage, hs]

theorem startStage_ok_timestamp (request : TaskExecutionEventRequest) (m : TaskExecution)
    (decoded : TaskExecutionClosure) (hs : startTransition request m)
    (h : (startStage request m decoded).err = none) :
    ∃ t : Time, ptypesTimestamp request.event.occurredAt = .ok t := by
  cases ht : ptypesTimestamp request.event.occurredAt with
  | ok t => exact ⟨t, rfl⟩
  | error e => simp [startStage, hs, addTaskStartedState, ht] at h

theorem terminalStage_of_not_terminal (request : TaskExecutionEventRequest)
    (started : HandlerResult) (hn : IsTaskExecutionTerminal request.event.phase = false) :
    terminalStage request started =
      { model := started.model, closure := started.closure, warnings := [], err := none } := by
  simp [terminalStage, hn]

theorem addTaskTerminalState_startedAt (request : TaskExecutionEventRequest)
    (m : TaskExecution) (c : TaskExecutionClosure) :
    (addTaskTerminalState request m c).model.startedAt = m.startedAt := by
  unfold addTaskTerminalState
  split
  · rfl
  · split
    · rfl
    · split <;> rfl

theorem terminalStage_startedAt (request : TaskExecutionEventRequest)
    (started : HandlerResult) :
    (terminalStage request started).model.startedAt = started.model.startedAt := by
  unfold terminalStage
  split
  · exact addTaskTerminalState_startedAt request started.model started.closure
  · rfl

/-- A successful update went through every stage; its record is the record of the terminal
stage with the encoded closure and the update time. -/
theorem updateDecoded_ok_form (request : TaskExecutionEventRequest) (m : TaskExecution)
    (decoded : TaskExecutionClosure) (h : (updateDecoded request m decoded).err = none) :
    ∃ (t : Time) (ci : Option Fields),
      (startStage request m decoded).err = none
        ∧ (terminalStage request (startStage request m decoded)).err = none
        ∧ mergeCustom (terminalStage request (startStage request m decoded)).closure.customInfo
            request.event.customInfo = .ok ci
        ∧ ptypesTimestamp request.event.occurredAt = .ok t
        ∧ (updateDecoded request m decoded).model =
            { (terminalStage request (startStage request m decoded)).model with
              closure := Blob.encoded
                { (terminalStage request (startStage request m decoded)).closure with
                  customInfo := ci },
              taskExecutionUpdatedAt := some t } := by
  unfold updateDecoded at h ⊢
  cases h1 : (startStage request m decoded).err with
  | some e => simp [h1] at h
  | none =>
    simp only [h1] at h ⊢
    cases h2 : (terminalStage request (startStage request m decoded)).err with
    | some e => simp [h2] at h
    | none =>
      simp only [h2] at h ⊢
      unfold finishStage at h ⊢
      cases h3 : mergeCustom (terminalStage request (startStage request m decoded)).closure.customInfo
          request.event.customInfo with
      | error e => simp [h3] at h
      | ok ci =>
        simp only [h3, protoMarshal] at h ⊢
        cases h4 : ptypesTimestamp request.event.occurredAt with
        | error e => simp [h4] at h
        | ok t => exact ⟨t, ci, by simp, by simp, by simp, rfl, by simp⟩

/-- A successful update decoded the stored closure. -/
theorem update_ok_decoded (request : TaskExecutionEventRequest) (m : TaskExecution)
    (h : (UpdateTaskExecutionModel request m).err = none) :
    ∃ decoded : TaskExecutionClosure, protoUnmarshal m.closure = .ok decoded
      ∧ UpdateTaskExecutionModel request m = updateDecoded request m decoded := by
  rw [UpdateTaskExecutionModel_stages] at h ⊢
  cases hd : protoUnmarshal m.closure with
  | error e => simp [hd] at h
  | ok decoded => exact ⟨decoded, rfl, rfl⟩

/-- Claim C3: when `UpdateTaskExecutionModel` succeeds, a record whose previous phase is
QUEUED or UNDEFINED and that receives a RUNNING event gets the occurrence time of the event
as `started_at`, on the record and in the closure; in every other case the `started_at` of
the record is left as it was. -/
theorem update_startedAt (request : TaskExecutionEventRequest) (m : TaskExecution)
    (h : (UpdateTaskExecutionModel request m).err = none) :
    (((m.phase = Phase.QUEUED.name ∨ m.phase = Phase.UNDEFINED.name)
          ∧ request.event.phase = Phase.RUNNING) →
        ∃ t : Time, ptypesTimestamp request.event.occurredAt = .ok t
          ∧ (UpdateTaskExecutionModel request m).model.startedAt = some t
          ∧ ∃ c : TaskExecutionClosure,
              (UpdateTaskExecutionModel request m).model.decodedClosure = some c
                ∧ c.startedAt = request.event.occurredAt)
      ∧ (¬ ((m.phase = Phase.QUEUED.name ∨ m.phase = Phase.UNDEFINED.name)
            ∧ request.event.phase = Phase.RUNNING) →
          (UpdateTaskExecutionModel request m).model.startedAt = m.startedAt) := by
  obtain ⟨decoded, _, hU⟩ := update_ok_decoded request m h
  rw [hU] at h ⊢
  obtain ⟨t, ci, h1, _, _, ht, hm⟩ := updateDecoded_ok_form request m decoded h
  rw [hm]
  constructor
  · intro hc
    have hs : startTransition request m := ⟨hc.1, (Phase.name_eq_running _).2 hc.2⟩
    have hnt : IsTaskExecutionTerminal request.event.phase = false := by
      rw [hc.2]; rfl
    refine ⟨t, ht, ?_, _, rfl, ?_⟩
    · show (terminalStage request (startStage request m decoded)).model.startedAt = some t
      rw [terminalStage_startedAt, startStage_of_transition request m decoded t hs ht]
    · show (terminalStage request (startStage request m decoded)).closure.startedAt
        = request.event.occurredAt
      rw [terminalStage_of_not_terminal _ _ hnt,
        startStage_of_transition request m decoded t hs ht]
  · intro hc
    have hs : ¬ startTransition request m := fun hs =>
      hc ⟨hs.1, (Phase.name_eq_running _).1 hs.2⟩
    show (terminalStage request (startStage request m decoded)).model.startedAt = m.startedAt
    rw [terminalStage_startedAt, startStage_of_no_transition request m decoded hs]
    rfl

/-- Witness of C3: a RUNNING event at second 200 folded into a QUEUED record. -/
theorem update_startedAt_witness :
    (UpdateTaskExecutionModel runningRequest queuedRecord).err = none
      ∧ ∃ t : Time, ptypesTimestamp runningRequest.event.occurredAt = .ok t
          ∧ (UpdateTaskExecutionModel runningRequest queuedRecord).model.startedAt = some t
          ∧ ∃ c : TaskExecutionClosure,
              (UpdateTaskExecutionModel runningRequest queuedRecord).model.decodedClosure = some c
                ∧ c.startedAt = runningRequest.event.occurredAt :=
  ⟨by decide, (update_startedAt runningRequest queuedRecord (by decide)).1 ⟨Or.inl rfl, rfl⟩⟩

/-! ## The terminal handler -/

theorem timeSub_of_fits (e s : Int) (hlo : minDuration ≤ e - s) (hhi : e - s ≤ maxDuration) :
    timeSub e s = e - s := by
  have h1 : ¬ (e - s > maxDuration) := by omega
  have h2 : ¬ (e - s < minDuration) := by omega
  simp [timeSub, h1, h2]

theorem timeSub_nonneg (e s : Int) (h : s ≤ e) : 0 ≤ timeSub e s := by
  unfold timeSub
  by_cases h1 : e - s > maxDuration
  · rw [if_pos h1]
    decide
  · rw [if_neg h1]
    by_cases h2 : e - s < minDuration
    · have h3 : minDuration < 0 := by decide
      omega
    · rw [if_neg h2]
      omega

theorem ptypesDurationProto_toNanos (d : Int) : (ptypesDurationProto d).toNanos = d := by
  simp only [ptypesDurationProto, Duration.toNanos]
  ring

theorem ptypesTimestampProto_toTime (s : Int) (ts : Timestamp)
    (h : ptypesTimestampProto s = .ok ts) : ts.toTime = s := by
  unfold ptypesTimestampProto at h
  simp only [] at h
  split at h
  · injection h with h
    subst h
    simp only [Timestamp.toTime]
    exact Int.ediv_add_emod' s 1000000000
  · exact absurd h (by simp)

theorem addTaskTerminalState_started (request : TaskExecutionEventRequest) (m : TaskExecution)
    (c : TaskExecutionClosure) (s e : Time) (ts : Timestamp) (hs : m.startedAt = some s)
    (he : ptypesTimestamp request.event.occurredAt = .ok e)
    (hts : ptypesTimestampProto s = .ok ts) :
    addTaskTerminalState request m c =
      { model := { m with duration := timeSub e s },
        closure := setOutputResult request
          { c with startedAt := some ts, duration := some (ptypesDurationProto (timeSub e s)) },
        warnings := [], err := none } := by
  simp [addTaskTerminalState, hs, he, hts]

theorem setOutputResult_duration (request : TaskExecutionEventRequest)
    (c : TaskExecutionClosure) : (setOutputResult request c).duration = c.duration := by
  unfold setOutputResult
  split
  · rfl
  · split <;> rfl

theorem setOutputResult_startedAt (request : TaskExecutionEventRequest)
    (c : TaskExecutionClosure) : (setOutputResult request c).startedAt = c.startedAt := by
  unfold setOutputResult
  split
  · rfl
  · split <;> rfl

/-- Claim C4, as amended: a terminal event with a parsable occurrence time applied by
`addTaskTerminalState` to a record whose `started_at` is set and representable as a
timestamp succeeds; the duration of the record and of the closure is the difference between
the occurrence time and `started_at` brought into the range of a 64-bit nanosecond count,
hence that difference itself whenever it fits; the closure echoes the `started_at` of the
record; the duration is non-negative whenever the occurrence time is not before
`started_at`. -/
theorem terminal_duration (request : TaskExecutionEventRequest) (m : TaskExecution)
    (c : TaskExecutionClosure) (s e : Time) (ts : Timestamp) (hs : m.startedAt = some s)
    (he : ptypesTimestamp request.event.occurredAt = .ok e)
    (hts : ptypesTimestampProto s = .ok ts) :
    (addTaskTerminalState request m c).err = none
      ∧ (addTaskTerminalState request m c).model.duration = timeSub e s
      ∧ (∃ d : Duration, (addTaskTerminalState request m c).closure.duration = some d
          ∧ d.toNanos = timeSub e s)
      ∧ (addTaskTerminalState request m c).closure.startedAt = some ts
      ∧ ts.toTime = s
      ∧ (minDuration ≤ e - s → e - s ≤ maxDuration →
          (addTaskTerminalState request m c).model.duration = e - s)
      ∧ (s ≤ e → 0 ≤ (addTaskTerminalState request m c).model.duration) := by
  rw [addTaskTerminalState_started request m c s e ts hs he hts]
  refine ⟨rfl, rfl, ⟨ptypesDurationProto (timeSub e s), ?_, ptypesDurationProto_toNanos _⟩, ?_,
    ptypesTimestampProto_toTime s ts hts, fun hlo hhi => timeSub_of_fits e s hlo hhi,
    fun h => timeSub_nonneg e s h⟩
  · rw [setOutputResult_duration]
  · rw [setOutputResult_startedAt]

/-- Witness of C4: the SUCCEEDED event at second 400 applied to the record that started at
second 200 gives a duration of 200 seconds. -/
theorem terminal_duration_witness :
    runningRecord.startedAt = some 200000000000
      ∧ ptypesTimestamp succeededRequest.event.occurredAt = .ok 400000000000
      ∧ ptypesTimestampProto 200000000000 = .ok (tsAt 200)
      ∧ (addTaskTerminalState succeededRequest runningRecord emptyClosure).model.duration
          = 200000000000 :=
  ⟨rfl, rfl, rfl,
    (terminal_duration succeededRequest runningRecord emptyClosure 200000000000 400000000000
      (tsAt 200) rfl rfl rfl).2.1.trans (by decide)⟩

/-- Counterexample to C4 as stated: a SUCCEEDED event in the year 2286 applied to a record
that started at the epoch. Both times are valid and the handler succeeds, yet the duration
is the largest 64-bit nanosecond count and not the difference of the two times. -/
theorem terminal_duration_counterexample :
    IsTaskExecutionTerminal farFutureRequest.event.phase = true
      ∧ startedAtEpochRecord.startedAt = some 0
      ∧ ptypesTimestamp farFutureRequest.event.occurredAt = .ok 10000000000000000000
      ∧ (addTaskTerminalState farFutureRequest startedAtEpochRecord emptyClosure).err = none
      ∧ (addTaskTerminalState farFutureRequest startedAtEpochRecord emptyClosure).model.duration
          = 9223372036854775807
      ∧ (addTaskTerminalState farFutureRequest startedAtEpochRecord emptyClosure).model.duration
          ≠ 10000000000000000000 - 0 := by
  refine ⟨by decide, rfl, rfl, by decide, by decide, by decide⟩

/-- Claim C5: a terminal event applied by `addTaskTerminalState` to a record without
`started_at` returns no error, leaves the record (its duration included) and the duration and
`started_at` of the closure as they were, and logs exactly one warning. A record created
from a terminal first event is such a record: the create path logs exactly one warning and
the record it returns has neither `started_at` nor a duration, on the record or in the
closure. -/
theorem terminal_without_start (request : TaskExecutionEventRequest) (m : TaskExecution)
    (c : TaskExecutionClosure) (h : m.startedAt = none) :
    ((addTaskTerminalState request m c).err = none
      ∧ (addTaskTerminalState request m c).model = m
      ∧ (addTaskTerminalState request m c).closure.duration = c.duration
      ∧ (addTaskTerminalState request m c).closure.startedAt = c.startedAt
      ∧ (addTaskTerminalState request m c).warnings.length = 1)
    ∧ (IsTaskExecutionTerminal request.event.phase = true →
        (CreateTaskExecutionModel { request := request }).warnings.length = 1
          ∧ ∀ created : TaskExecution,
              (CreateTaskExecutionModel { request := request }).taskExecution = some created →
                created.startedAt = none ∧ created.duration = 0
                  ∧ ∃ closure : TaskExecutionClosure, created.decodedClosure = some closure
                      ∧ closure.duration = none ∧ closure.startedAt = none) := by
  constructor
  · simp [addTaskTerminalState, h, setOutputResult_duration, setOutputResult_startedAt]
  · intro hterm
    have hnr : request.event.phase ≠ Phase.RUNNING := terminal_not_running _ hterm
    unfold CreateTaskExecutionModel
    simp only [hnr, if_false, hterm, if_true, addTaskTerminalState, protoMarshal]
    cases ht : ptypesTimestamp request.event.occurredAt with
    | error e => simp
    | ok t =>
      simp [TaskExecution.decodedClosure, protoUnmarshal, setOutputResult_duration,
        setOutputResult_startedAt]

/-- Witness of C5: the SUCCEEDED event at second 400 applied to the QUEUED record that never
started. -/
theorem terminal_without_start_witness :
    queuedRecord.startedAt = none
      ∧ (addTaskTerminalState succeededRequest queuedRecord emptyClosure).err = none
      ∧ (addTaskTerminalState succeededRequest queuedRecord emptyClosure).warnings.length = 1 :=
  ⟨rfl, (terminal_without_start succeededRequest queuedRecord emptyClosure rfl).1.1,
    (terminal_without_start succeededRequest queuedRecord emptyClosure rfl).1.2.2.2.2⟩

/-! ## The create path -/

/-- The body of `CreateTaskExecutionModel` is the composition of its stages. -/
theorem CreateTaskExecutionModel_stages (input : CreateTaskExecutionModelInput) :
    CreateTaskExecutionModel input =
      match (createStartStage input).err with
      | some err =>
        { taskExecution := none, err := some err, warnings := (createStartStage input).warnings }
      | none =>
        match (terminalStage input.request (createStartStage input)).err with
        | some err =>
          { taskExecution := none, err := some err,
            warnings := (createStartStage input).warnings
              ++ (terminalStage input.request (createStartStage input)).warnings }
        | none =>
          match ptypesTimestamp input.request.event.occurredAt with
          | .error _ =>
            { taskExecution := none,
              err := some (NewFlyteAdminErrorf Codes.Internal "failed to read event timestamp"),
              warnings := (createStartStage input).warnings
                ++ (terminalStage input.request (createStartStage input)).warnings }
          | .ok t =>
            { taskExecution := some
                { (terminalStage input.request (createStartStage input)).model with
                  closure :=
                    Blob.encoded (terminalStage input.request (createStartStage input)).closure,
                  taskExecutionCreatedAt := some t,
                  taskExecutionUpdatedAt := some t },
              err := none,
              warnings := (createStartStage input).warnings
                ++ (terminalStage input.request (createStartStage input)).warnings } := by
  rfl

/-- A record returned by the create path went through every stage. -/
theorem create_some_form (input : CreateTaskExecutionModelInput) (created : TaskExecution)
    (h : (CreateTaskExecutionModel input).taskExecution = some created) :
    ∃ t : Time, ptypesTimestamp input.request.event.occurredAt = .ok t
      ∧ (createStartStage input).err = none
      ∧ (terminalStage input.request (createStartStage input)).err = none
      ∧ created =
          { (terminalStage input.request (createStartStage input)).model with
            closure := Blob.encoded (terminalStage input.request (createStartStage input)).closure,
            taskExecutionCreatedAt := some t,
            taskExecutionUpdatedAt := some t } := by
  rw [CreateTaskExecutionModel_stages] at h
  cases h1 : (createStartStage input).err with
  | some e => simp [h1] at h
  | none =>
    simp only [h1] at h
    cases h2 : (terminalStage input.request (createStartStage input)).err with
    | some e => simp [h2] at h
    | none =>
      simp only [h2] at h
      cases h3 : ptypesTimestamp input.request.event.occurredAt with
      | error e => simp [h3] at h
      | ok t =>
        simp only [h3, Option.some.injEq] at h
        exact ⟨t, rfl, rfl, rfl, h.symm⟩

theorem createStartStage_not_running (input : CreateTaskExecutionModelInput)
    (h : input.request.event.phase ≠ Phase.RUNNING) :
    createStartStage input =
      { model := createModel0 input, closure := createClosure0 input, warnings := [],
        err := none } := by
  simp [createStartStage, h]

theorem createStartStage_outputResult (input : CreateTaskExecutionModelInput) :
    (createStartStage input).closure.outputResult = ClosureOutputResult.unset := by
  unfold createStartStage addTaskStartedState
  split
  · split <;> rfl
  · rfl

theorem terminalStage_of_terminal_unstarted (request : TaskExecutionEventRequest)
    (started : HandlerResult) (ht : IsTaskExecutionTerminal request.event.phase = true)
    (hs : started.model.startedAt = none) :
    terminalStage request started =
      { model := started.model, closure := setOutputResult request started.closure,
        warnings := ["task execution is missing StartedAt"], err := none } := by
  simp [terminalStage, ht, addTaskTerminalState, hs]

/-- The closure stored by the create path: the closure of the event, with the output result
of the event when the phase is terminal. -/
theorem create_closure_outputResult (input : CreateTaskExecutionModelInput) :
    (terminalStage input.request (createStartStage input)).closure.outputResult =
      if IsTaskExecutionTerminal input.request.event.phase = true then
        (setOutputResult input.request (createClosure0 input)).outputResult
      else ClosureOutputResult.unset := by
  by_cases ht : IsTaskExecutionTerminal input.request.event.phase = true
  · have hnr := terminal_not_running _ ht
    rw [if_pos ht, createStartStage_not_running input hnr,
      terminalStage_of_terminal_unstarted _ _ ht rfl]
  · have hf : IsTaskExecutionTerminal input.request.event.phase = false := by
      simpa using ht
    rw [if_neg ht, terminalStage_of_not_terminal _ _ hf]
    exact createStartStage_outputResult input

/-- Claim C6: the closure of the record built by `CreateTaskExecutionModel` holds the output
location of the event when the phase is terminal and the event carries a non-empty output
location; otherwise the error of the event when the phase is terminal and the event carries
an error; otherwise no output result. It never holds both an output location and an
error. -/
theorem create_outputResult (input : CreateTaskExecutionModelInput) (created : TaskExecution)
    (h : (CreateTaskExecutionModel input).taskExecution = some created) :
    ∃ c : TaskExecutionClosure, created.decodedClosure = some c
      ∧ (IsTaskExecutionTerminal input.request.event.phase = true
            ∧ input.request.event.GetOutputUri ≠ "" →
          c.outputResult = ClosureOutputResult.outputUri input.request.event.GetOutputUri)
      ∧ (IsTaskExecutionTerminal input.request.event.phase = true
            ∧ input.request.event.GetOutputUri = "" →
          ∀ e : ExecutionError, input.request.event.GetError = some e →
            c.outputResult = ClosureOutputResult.error e)
      ∧ (IsTaskExecutionTerminal input.request.event.phase = false
            ∨ (input.request.event.GetOutputUri = "" ∧ input.request.event.GetError = none) →
          c.outputResult = ClosureOutputResult.unset)
      ∧ ¬ (c.GetOutputUri ≠ "" ∧ c.GetError ≠ none) := by
  obtain ⟨t, _, _, _, hc⟩ := create_some_form input created h
  refine ⟨(terminalStage input.request (createStartStage input)).closure, ?_, ?_, ?_, ?_, ?_⟩
  · rw [hc]; rfl
  · intro ⟨ht, hu⟩
    rw [create_closure_outputResult, if_pos ht]
    simp [setOutputResult, hu]
  · intro ⟨ht, hu⟩ e he
    rw [create_closure_outputResult, if_pos ht]
    simp [setOutputResult, hu, he]
  · intro hcase
    rw [create_closure_outputResult]
    rcases hcase with hf | ⟨hu, he⟩
    · simp [hf]
    · split
      · simp [setOutputResult, hu, he, createClosure0]
      · rfl
  · intro ⟨h1, h2⟩
    cases hr : (terminalStage input.request (createStartStage input)).closure.outputResult with
    | unset => simp [TaskExecutionClosure.GetOutputUri, hr] at h1
    | outputUri u => simp [TaskExecutionClosure.GetError, hr] at h2
    | error e => simp [TaskExecutionClosure.GetOutputUri, hr] at h1

/-- Witness of C6: the record created from the SUCCEEDED event with an output location. -/
theorem create_outputResult_witness :
    ∃ created : TaskExecution,
      (CreateTaskExecutionModel { request := succeededRequest }).taskExecution = some created
        ∧ ∃ c : TaskExecutionClosure, created.decodedClosure = some c
            ∧ c.outputResult = ClosureOutputResult.outputUri "s3://bucket/out" :=
  ⟨_, rfl, by
    obtain ⟨c, hc, hout, _⟩ :=
      create_outputResult { request := succeededRequest } _ rfl
    exact ⟨c, hc, hout ⟨by decide, by decide⟩⟩⟩

/-! ## What the update path writes -/

theorem addTaskStartedState_model_form (request : TaskExecutionEventRequest)
    (m : TaskExecution) (c : TaskExecutionClosure) :
    ∃ x : Option Time, (addTaskStartedState request m c).model = { m with startedAt := x } := by
  unfold addTaskStartedState
  split
  · exact ⟨m.startedAt, rfl⟩
  · exact ⟨_, rfl⟩

theorem addTaskTerminalState_model_form (request : TaskExecutionEventRequest)
    (m : TaskExecution) (c : TaskExecutionClosure) :
    ∃ d : Int, (addTaskTerminalState request m c).model = { m with duration := d } := by
  unfold addTaskTerminalState
  split
  · exact ⟨m.duration, rfl⟩
  · split
    · exact ⟨m.duration, rfl⟩
    · split
      · exact ⟨m.duration, rfl⟩
      · exact ⟨_, rfl⟩

theorem startStage_model_form (request : TaskExecutionEventRequest) (m : TaskExecution)
    (decoded : TaskExecutionClosure) :
    ∃ x : Option Time,
      (startStage request m decoded).model = { updateModel1 request m with startedAt := x } := by
  unfold startStage
  split
  · exact addTaskStartedState_model_form request _ _
  · exact ⟨m.startedAt, rfl⟩

theorem terminalStage_model_form (request : TaskExecutionEventRequest)
    (started : HandlerResult) :
    ∃ d : Int, (terminalStage request started).model = { started.model with duration := d } := by
  unfold terminalStage
  split
  · exact addTaskTerminalState_model_form request _ _
  · exact ⟨started.model.duration, rfl⟩

/-- Whatever the outcome, the record left by the update stages is the record with the phase
and phase version of the event, in which only `started_at`, the duration, the closure blob
and the update time may differ; the update time differs only on success. -/
theorem updateDecoded_model_form (request : TaskExecutionEventRequest) (m : TaskExecution)
    (decoded : TaskExecutionClosure) :
    ∃ (x : Option Time) (d : Int) (b : Blob) (u : Option Time),
      (updateDecoded request m decoded).model =
          { updateModel1 request m with
            startedAt := x, duration := d, closure := b, taskExecutionUpdatedAt := u }
        ∧ ((updateDecoded request m decoded).err ≠ none → u = m.taskExecutionUpdatedAt) := by
  obtain ⟨x, hx⟩ := startStage_model_form request m decoded
  obtain ⟨d, hd⟩ := terminalStage_model_form request (startStage request m decoded)
  unfold updateDecoded
  cases h1 : (startStage request m decoded).err with
  | some e =>
    simp only []
    exact ⟨x, m.duration, m.closure, m.taskExecutionUpdatedAt, by rw [hx]; rfl, fun _ => rfl⟩
  | none =>
    simp only []
    cases h2 : (terminalStage request (startStage request m decoded)).err with
    | some e =>
      exact ⟨x, d, m.closure, m.taskExecutionUpdatedAt, by rw [hd, hx]; rfl, fun _ => rfl⟩
    | none =>
      simp only []
      unfold finishStage
      cases h3 : mergeCustom (terminalStage request (startStage request m decoded)).closure.customInfo
          request.event.customInfo with
      | error e =>
        exact ⟨x, d, m.closure, m.taskExecutionUpdatedAt, by rw [hd, hx]; rfl, fun _ => rfl⟩
      | ok ci =>
        simp only [protoMarshal]
        cases h4 : ptypesTimestamp request.event.occurredAt with
        | error e =>
          exact ⟨x, d, _, m.taskExecutionUpdatedAt, by rw [hd, hx]; rfl, fun _ => rfl⟩
        | ok t =>
          exact ⟨x, d, _, some t, by rw [hd, hx], fun hne => absurd rfl hne⟩

/-- Claim C7, as amended: when `UpdateTaskExecutionModel` fails because the closure blob
does not decode, every field of the record is as before the call. When it fails later (on
the occurrence timestamp or in the metadata merge) the identity, the input location, the
creation time, the update time and the children of the record are as before, while the
phase and the phase version of the record already hold the values of the event. -/
theorem update_failure_writes (request : TaskExecutionEventRequest) (m : TaskExecution)
    (h : (UpdateTaskExecutionModel request m).err ≠ none) :
    ((∀ decoded : TaskExecutionClosure, protoUnmarshal m.closure ≠ .ok decoded) →
        (UpdateTaskExecutionModel request m).model = m)
      ∧ ((∃ decoded : TaskExecutionClosure, protoUnmarshal m.closure = .ok decoded) →
          (UpdateTaskExecutionModel request m).model.phase = request.event.phase.name
            ∧ (UpdateTaskExecutionModel request m).model.phaseVersion = request.event.phaseVersion)
      ∧ (UpdateTaskExecutionModel request m).model.taskExecutionKey = m.taskExecutionKey
      ∧ (UpdateTaskExecutionModel request m).model.inputURI = m.inputURI
      ∧ (UpdateTaskExecutionModel request m).model.taskExecutionCreatedAt
          = m.taskExecutionCreatedAt
      ∧ (UpdateTaskExecutionModel request m).model.taskExecutionUpdatedAt
          = m.taskExecutionUpdatedAt
      ∧ (UpdateTaskExecutionModel request m).model.childNodeExecution
          = m.childNodeExecution := by
  rw [UpdateTaskExecutionModel_stages] at h ⊢
  cases hd : protoUnmarshal m.closure with
  | error e =>
    exact ⟨fun _ => rfl, fun ⟨_, hdec⟩ => by simp at hdec, rfl, rfl, rfl, rfl, rfl⟩
  | ok decoded =>
    simp only [hd] at h ⊢
    obtain ⟨x, d, b, u, hm, hu⟩ := updateDecoded_model_form request m decoded
    have hu2 := hu h
    rw [hm]
    refine ⟨fun hno => absurd rfl (hno decoded), fun _ => ⟨rfl, rfl⟩, rfl, rfl, rfl, hu2, rfl⟩

/-- Witness of C7: the SUCCEEDED event without an occurrence time, folded into the QUEUED
record, fails and leaves the update time of the record as it was. -/
theorem update_failure_writes_witness :
    (UpdateTaskExecutionModel untimedRequest queuedRecord).err ≠ none
      ∧ (UpdateTaskExecutionModel untimedRequest queuedRecord).model.taskExecutionUpdatedAt
          = queuedRecord.taskExecutionUpdatedAt :=
  ⟨by decide, (update_failure_writes untimedRequest queuedRecord (by decide)).2.2.2.2.2.1⟩

/-- Counterexample to C7 as stated: the SUCCEEDED event without an occurrence time, folded
into the QUEUED record, fails after the phase and the closure blob of the record have been
overwritten. -/
theorem update_failure_counterexample :
    (UpdateTaskExecutionModel untimedRequest queuedRecord).err
        = some (NewFlyteAdminErrorf Codes.Internal "failed to parse updated at timestamp")
      ∧ queuedRecord.phase = "QUEUED"
      ∧ (UpdateTaskExecutionModel untimedRequest queuedRecord).model.phase = "SUCCEEDED"
      ∧ (UpdateTaskExecutionModel untimedRequest queuedRecord).model.closure
          ≠ queuedRecord.closure
      ∧ (UpdateTaskExecutionModel untimedRequest queuedRecord).model ≠ queuedRecord := by
  refine ⟨by decide, rfl, by decide, by decide, by decide⟩

/-! ## The start time over a sequence of events -/

theorem Phase.name_notQueuedOrUndefined (p : Phase) (h1 : p ≠ Phase.QUEUED)
    (h2 : p ≠ Phase.UNDEFINED) : notQueuedOrUndefined p.name := by
  unfold notQueuedOrUndefined
  cases p <;> first | exact absurd rfl h1 | exact absurd rfl h2 | decide

theorem update_ok_phase (request : TaskExecutionEventRequest) (m : TaskExecution)
    (h : (UpdateTaskExecutionModel request m).err = none) :
    (UpdateTaskExecutionModel request m).model.phase = request.event.phase.name := by
  obtain ⟨decoded, _, hU⟩ := update_ok_decoded request m h
  obtain ⟨x, d, b, u, hm, _⟩ := updateDecoded_model_form request m decoded
  rw [hU, hm]
  rfl

theorem update_keeps_startedAt (request : TaskExecutionEventRequest) (m : TaskExecution)
    (h : (UpdateTaskExecutionModel request m).err = none) (hs : ¬ startTransition request m) :
    (UpdateTaskExecutionModel request m).model.startedAt = m.startedAt := by
  obtain ⟨decoded, _, hU⟩ := update_ok_decoded request m h
  rw [hU] at h ⊢
  obtain ⟨t, ci, _, _, _, _, hm⟩ := updateDecoded_ok_form request m decoded h
  rw [hm]
  show (terminalStage request (startStage request m decoded)).model.startedAt = m.startedAt
  rw [terminalStage_startedAt, startStage_of_no_transition request m decoded hs]
  rfl

theorem applyEvents_keeps_startedAt :
    ∀ (events : List TaskExecutionEventRequest) (m final : TaskExecution),
      notQueuedOrUndefined m.phase →
      (∀ r ∈ events, r.event.phase ≠ Phase.QUEUED ∧ r.event.phase ≠ Phase.UNDEFINED) →
      applyEvents events m = some final →
      final.startedAt = m.startedAt ∧ notQueuedOrUndefined final.phase
  | [], m, final, hp, _, h => by
    simp only [applyEvents, Option.some.injEq] at h
    subst h
    exact ⟨rfl, hp⟩
  | request :: rest, m, final, hp, hev, h => by
    simp only [applyEvents] at h
    cases herr : (UpdateTaskExecutionModel request m).err with
    | some e => simp [herr] at h
    | none =>
      simp only [herr] at h
      have hno : ¬ startTransition request m := fun hs =>
        hs.1.elim (fun hq => hp.1 hq) (fun hu => hp.2 hu)
      have hphase : notQueuedOrUndefined (UpdateTaskExecutionModel request m).model.phase := by
        rw [update_ok_phase request m herr]
        exact Phase.name_notQueuedOrUndefined _ (hev request (List.mem_cons_self _ _)).1
          (hev request (List.mem_cons_self _ _)).2
      obtain ⟨h1, h2⟩ := applyEvents_keeps_startedAt rest _ final hphase
        (fun r hr => hev r (List.mem_cons_of_mem _ hr)) h
      exact ⟨h1.trans (update_keeps_startedAt request m herr hno), h2⟩

theorem createStartStage_model_form (input : CreateTaskExecutionModelInput) :
    ∃ x : Option Time,
      (createStartStage input).model = { createModel0 input with startedAt := x }
        ∧ (input.request.event.phase ≠ Phase.RUNNING → x = none) := by
  unfold createStartStage addTaskStartedState
  by_cases hr : input.request.event.phase = Phase.RUNNING
  · rw [if_pos hr]
    split
    · exact ⟨none, rfl, fun _ => rfl⟩
    · exact ⟨_, rfl, fun hne => absurd hr hne⟩
  · rw [if_neg hr]
    exact ⟨none, rfl, fun _ => rfl⟩

/-- A record returned by the create path carries the phase name of the event, and a start
time only when the event was RUNNING. -/
theorem create_phase_startedAt (input : CreateTaskExecutionModelInput) (created : TaskExecution)
    (h : (CreateTaskExecutionModel input).taskExecution = some created) :
    created.phase = input.request.event.phase.name
      ∧ (input.request.event.phase ≠ Phase.RUNNING → created.startedAt = none) := by
  obtain ⟨t, _, _, _, hc⟩ := create_some_form input created h
  obtain ⟨d, hd⟩ := terminalStage_model_form input.request (createStartStage input)
  obtain ⟨x, hx, hxn⟩ := createStartStage_model_form input
  rw [hc, hd, hx]
  exact ⟨rfl, fun hne => hxn hne⟩

theorem applyEvents_phase_invariant :
    ∀ (events : List TaskExecutionEventRequest) (m final : TaskExecution),
      (m.startedAt ≠ none → notQueuedOrUndefined m.phase) →
      (∀ r ∈ events, r.event.phase ≠ Phase.QUEUED ∧ r.event.phase ≠ Phase.UNDEFINED) →
      applyEvents events m = some final →
      (final.startedAt ≠ none → notQueuedOrUndefined final.phase)
  | [], m, final, hp, _, h => by
    simp only [applyEvents, Option.some.injEq] at h
    subst h
    exact hp
  | request :: rest, m, final, _, hev, h => by
    simp only [applyEvents] at h
    cases herr : (UpdateTaskExecutionModel request m).err with
    | some e => simp [herr] at h
    | none =>
      simp only [herr] at h
      have hphase : notQueuedOrUndefined (UpdateTaskExecutionModel request m).model.phase := by
        rw [update_ok_phase request m herr]
        exact Phase.name_notQueuedOrUndefined _ (hev request (List.mem_cons_self _ _)).1
          (hev request (List.mem_cons_self _ _)).2
      exact applyEvents_phase_invariant rest _ final (fun _ => hphase)
        (fun r hr => hev r (List.mem_cons_of_mem _ hr)) h

theorem applyEvents_concat :
    ∀ (earlier : List TaskExecutionEventRequest) (request : TaskExecutionEventRequest)
      (m mid : TaskExecution),
      applyEvents (earlier ++ [request]) m = some mid →
      ∃ before : TaskExecution, applyEvents earlier m = some before
        ∧ (UpdateTaskExecutionModel request before).err = none
        ∧ (UpdateTaskExecutionModel request before).model = mid
  | [], request, m, mid, h => by
    simp only [List.nil_append, applyEvents] at h
    cases herr : (UpdateTaskExecutionModel request m).err with
    | some e => simp [herr] at h
    | none =>
      simp only [herr, Option.some.injEq] at h
      exact ⟨m, rfl, herr, h⟩
  | first :: rest, request, m, mid, h => by
    simp only [List.cons_append, applyEvents] at h ⊢
    cases herr : (UpdateTaskExecutionModel first m).err with
    | some e => simp [herr] at h
    | none =>
      simp only [herr] at h ⊢
      exact applyEvents_concat rest request _ mid h

/-- The record right after the event that set `started_at`, be it the first event or a
later one that found no start time, is in the phase RUNNING. -/
theorem phase_after_start (input : CreateTaskExecutionModelInput)
    (earlier : List TaskExecutionEventRequest) (created mid : TaskExecution) (t : Time)
    (hcreate : (CreateTaskExecutionModel input).taskExecution = some created)
    (hearlier : applyEvents earlier created = some mid)
    (hset : mid.startedAt = some t)
    (hfresh : ∀ (events : List TaskExecutionEventRequest) (request : TaskExecutionEventRequest)
      (before : TaskExecution), earlier = events ++ [request] →
      applyEvents events created = some before → before.startedAt = none) :
    notQueuedOrUndefined mid.phase := by
  rcases List.eq_nil_or_concat earlier with hnil | ⟨events, request, hconcat⟩
  · subst hnil
    simp only [applyEvents, Option.some.injEq] at hearlier
    subst hearlier
    obtain ⟨hph, hst⟩ := create_phase_startedAt input created hcreate
    have hr : input.request.event.phase = Phase.RUNNING := by
      by_contra hnr
      rw [hst hnr] at hset
      exact absurd hset (by simp)
    rw [hph, hr]
    unfold notQueuedOrUndefined
    decide
  · have hsplit : earlier = events ++ [request] := by
      rw [hconcat, List.concat_eq_append]
    rw [hsplit] at hearlier
    obtain ⟨before, hbefore, herr, hmodel⟩ :=
      applyEvents_concat events request created mid hearlier
    have hnone := hfresh events request before hsplit hbefore
    have htrans : startTransition request before := by
      by_contra hno
      have hkeep := update_keeps_startedAt request before herr hno
      rw [hmodel, hset, hnone] at hkeep
      exact absurd hkeep (by simp)
    have hrun : request.event.phase = Phase.RUNNING := (Phase.name_eq_running _).1 htrans.2
    rw [← hmodel, update_ok_phase request before herr, hrun]
    unfold notQueuedOrUndefined
    decide

/-- Claim C8, as amended: for a record created by `CreateTaskExecutionModel` and a sequence
of events folded into it by successful `UpdateTaskExecutionModel` calls: once `started_at`
has been set, by the first event or by a later one that found no start time, no later event
of the sequence changes it, provided none of these later events carries the phase QUEUED or
UNDEFINED. The events that come before `started_at` is set are not restricted. -/
theorem startedAt_set_once (input : CreateTaskExecutionModelInput)
    (earlier later : List TaskExecutionEventRequest) (created mid final : TaskExecution)
    (t : Time)
    (hcreate : (CreateTaskExecutionModel input).taskExecution = some created)
    (hearlier : applyEvents earlier created = some mid)
    (hset : mid.startedAt = some t)
    (hfresh : ∀ (events : List TaskExecutionEventRequest) (request : TaskExecutionEventRequest)
      (before : TaskExecution), earlier = events ++ [request] →
      applyEvents events created = some before → before.startedAt = none)
    (hphases : ∀ r ∈ later, r.event.phase ≠ Phase.QUEUED ∧ r.event.phase ≠ Phase.UNDEFINED)
    (hlater : applyEvents later mid = some final) :
    final.startedAt = some t := by
  have hmid : notQueuedOrUndefined mid.phase :=
    phase_after_start input earlier created mid t hcreate hearlier hset hfresh
  rw [(applyEvents_keeps_startedAt later mid final hmid hphases hlater).1, hset]

/-- Witness of C8: a record created from a QUEUED event, then a second QUEUED event and a
RUNNING event at second 200, which sets the start time; a further RUNNING event at second
300 and a SUCCEEDED event at second 400 leave the start time at second 200. -/
theorem startedAt_set_once_witness :
    ∃ created mid final : TaskExecution,
      (CreateTaskExecutionModel { request := queuedRequest }).taskExecution = some created
        ∧ created.startedAt = none
        ∧ applyEvents [queuedRequest, runningRequest] created = some mid
        ∧ mid.startedAt = some 200000000000
        ∧ applyEvents [runningAgainRequest, succeededRequest] mid = some final
        ∧ final.startedAt = some 200000000000 := by
  refine ⟨_, _, _, rfl, rfl, rfl, rfl, rfl, ?_⟩
  refine startedAt_set_once { request := queuedRequest } [queuedRequest, runningRequest]
    [runningAgainRequest, succeededRequest] _ _ _ 200000000000 rfl rfl rfl ?_ (by decide) rfl
  intro events request before hsplit hbefore
  have hlists : [queuedRequest] ++ [runningRequest] = events ++ [request] := hsplit
  have hevents : [queuedRequest] = events := (List.append_inj' hlists rfl).1
  subst hevents
  have hsome : applyEvents [queuedRequest] _ = some _ := hbefore
  simp only [applyEvents] at hsome
  split at hsome
  · exact absurd hsome (by simp)
  · rw [Option.some.injEq] at hsome
    rw [← hsome]
    rfl

/-- Counterexample to C8 as stated: a record created from a RUNNING event at second 200
holds a start time; a QUEUED event followed by a RUNNING event at second 300, both folded in
successfully, replace it by second 300. -/
theorem startedAt_set_once_counterexample :
    ∃ created final : TaskExecution,
      (CreateTaskExecutionModel { request := runningRequest }).taskExecution = some created
        ∧ created.startedAt = some 200000000000
        ∧ applyEvents [queuedRequest, runningAgainRequest] created = some final
        ∧ final.startedAt = some 300000000000
        ∧ final.startedAt ≠ created.startedAt :=
  ⟨_, _, rfl, rfl, rfl, rfl, by decide⟩

/-! ## Applying a terminal event twice -/

theorem mergeLogs_idem (existing latest : List TaskLog) :
    mergeLogs (mergeLogs existing latest) latest = mergeLogs existing latest := by
  rw [mergeLogs_closed (mergeLogs existing latest) latest, mergeLogs_closed existing latest]
  rw [List.filter_append, List.filter_filter]
  have h1 : latest.filter (fun e => !decide (e.uri ∈ logUris latest)) = [] := by
    rw [List.filter_eq_nil_iff]
    intro a ha
    have : a.uri ∈ logUris latest := List.mem_map_of_mem _ ha
    simp [this]
  rw [h1]
  simp

theorem setOutputResult_cases (request : TaskExecutionEventRequest) :
    (∃ out : ClosureOutputResult,
        ∀ c : TaskExecutionClosure, setOutputResult request c = { c with outputResult := out })
      ∨ (∀ c : TaskExecutionClosure, setOutputResult request c = c) := by
  by_cases hu : request.event.GetOutputUri = ""
  · cases he : request.event.GetError with
    | none =>
      right
      intro c
      simp [setOutputResult, hu, he]
    | some e =>
      left
      exact ⟨ClosureOutputResult.error e, fun c => by simp [setOutputResult, hu, he]⟩
  · left
    exact ⟨ClosureOutputResult.outputUri request.event.GetOutputUri,
      fun c => by simp [setOutputResult, hu]⟩

/-- Running the terminal handler again on what it produced, with another closure blob,
update time and custom metadata in place, changes nothing. -/
theorem addTaskTerminalState_again (request : TaskExecutionEventRequest) (m : TaskExecution)
    (c : TaskExecutionClosure) (h : (addTaskTerminalState request m c).err = none)
    (b : Blob) (u : Option Time) (x : Option Fields) :
    addTaskTerminalState request
        { (addTaskTerminalState request m c).model with
          closure := b, taskExecutionUpdatedAt := u }
        { (addTaskTerminalState request m c).closure with customInfo := x }
      = { model := { (addTaskTerminalState request m c).model with
            closure := b, taskExecutionUpdatedAt := u },
          closure := { (addTaskTerminalState request m c).closure with customInfo := x },
          warnings := (addTaskTerminalState request m c).warnings,
          err := none } := by
  cases hs : m.startedAt with
  | none =>
    have hH : addTaskTerminalState request m c =
        { model := m, closure := setOutputResult request c,
          warnings := ["task execution is missing StartedAt"], err := none } := by
      simp [addTaskTerminalState, hs]
    rw [hH]
    rcases setOutputResult_cases request with ⟨out, hout⟩ | hid
    · simp [addTaskTerminalState, hs, hout]
    · simp [addTaskTerminalState, hs, hid]
  | some s =>
    cases he : ptypesTimestamp request.event.occurredAt with
    | error e => simp [addTaskTerminalState, hs, he] at h
    | ok e =>
      cases hts : ptypesTimestampProto s with
      | error e2 => simp [addTaskTerminalState, hs, he, hts] at h
      | ok ts =>
        rw [addTaskTerminalState_started request m c s e ts hs he hts]
        rcases setOutputResult_cases request with ⟨out, hout⟩ | hid
        · simp [addTaskTerminalState, hs, he, hts, hout]
        · simp [addTaskTerminalState, hs, he, hts, hid]

theorem addTaskTerminalState_closure_frame (request : TaskExecutionEventRequest)
    (m : TaskExecution) (c : TaskExecutionClosure) :
    (addTaskTerminalState request m c).closure.phase = c.phase
      ∧ (addTaskTerminalState request m c).closure.updatedAt = c.updatedAt
      ∧ (addTaskTerminalState request m c).closure.logs = c.logs
      ∧ (addTaskTerminalState request m c).closure.createdAt = c.createdAt
      ∧ (addTaskTerminalState request m c).closure.customInfo = c.customInfo := by
  unfold addTaskTerminalState
  rcases setOutputResult_cases request with ⟨out, hout⟩ | hid
  · split
    · simp [hout]
    · split
      · simp
      · split <;> simp [hout]
  · split
    · simp [hid]
    · split
      · simp
      · split <;> simp [hid]

theorem updateClosure1_fixed (request : TaskExecutionEventRequest) (c : TaskExecutionClosure)
    (hp : c.phase = request.event.phase) (hu : c.updatedAt = request.event.occurredAt)
    (hl : mergeLogs c.logs request.event.logs = c.logs) : updateClosure1 request c = c := by
  unfold updateClosure1
  rw [hl, ← hp, ← hu]

theorem updateModel1_fixed (request : TaskExecutionEventRequest) (m : TaskExecution)
    (hp : m.phase = request.event.phase.name)
    (hv : m.phaseVersion = request.event.phaseVersion) : updateModel1 request m = m := by
  unfold updateModel1
  rw [← hp, ← hv]

theorem terminal_no_transition (request : TaskExecutionEventRequest) (m : TaskExecution)
    (hterm : IsTaskExecutionTerminal request.event.phase = true) :
    ¬ startTransition request m := fun hs =>
  terminal_not_running _ hterm ((Phase.name_eq_running _).1 hs.2)

/-- The update stages for a terminal event: the terminal handler on the record and closure
carrying the phase of the event, then the final stage. -/
theorem updateDecoded_terminal (request : TaskExecutionEventRequest) (m : TaskExecution)
    (decoded : TaskExecutionClosure)
    (hterm : IsTaskExecutionTerminal request.event.phase = true) :
    updateDecoded request m decoded =
      match (addTaskTerminalState request (updateModel1 request m)
          (updateClosure1 request decoded)).err with
      | some err =>
        { model := (addTaskTerminalState request (updateModel1 request m)
            (updateClosure1 request decoded)).model,
          warnings := (addTaskTerminalState request (updateModel1 request m)
            (updateClosure1 request decoded)).warnings,
          err := some err }
      | none =>
        finishStage request
          (addTaskTerminalState request (updateModel1 request m)
            (updateClosure1 request decoded)).model
          (addTaskTerminalState request (updateModel1 request m)
            (updateClosure1 request decoded)).closure
          (addTaskTerminalState request (updateModel1 request m)
            (updateClosure1 request decoded)).warnings := by
  unfold updateDecoded
  rw [startStage_of_no_transition request m decoded (terminal_no_transition request m hterm)]
  simp [terminalStage, hterm]

theorem finishStage_ok (request : TaskExecutionEventRequest) (model : TaskExecution)
    (closure : TaskExecutionClosure) (warnings : List String) (ci : Option Fields) (t : Time)
    (hm : mergeCustom closure.customInfo request.event.customInfo = .ok ci)
    (ht : ptypesTimestamp request.event.occurredAt = .ok t) :
    finishStage request model closure warnings =
      { model := { model with
          closure := Blob.encoded { closure with customInfo := ci },
          taskExecutionUpdatedAt := some t },
        warnings := warnings, err := none } := by
  simp [finishStage, hm, ht, protoMarshal]

theorem mergeCustom_none_right (existing : Option Fields) :
    mergeCustom existing none = .ok existing := by
  cases existing <;> rfl

/-- The record and the outcome of a second application of a terminal event, in terms of
what the terminal handler produced in the first application. -/
theorem update_terminal_twice (request : TaskExecutionEventRequest) (H : HandlerResult)
    (ci ci2 : Option Fields) (t : Time)
    (hterm : IsTaskExecutionTerminal request.event.phase = true)
    (hphase : H.model.phase = request.event.phase.name)
    (hversion : H.model.phaseVersion = request.event.phaseVersion)
    (hcphase : H.closure.phase = request.event.phase)
    (hupdated : H.closure.updatedAt = request.event.occurredAt)
    (hlogs : mergeLogs H.closure.logs request.event.logs = H.closure.logs)
    (hagain : ∀ (b : Blob) (u : Option Time) (x : Option Fields),
      addTaskTerminalState request { H.model with closure := b, taskExecutionUpdatedAt := u }
          { H.closure with customInfo := x }
        = { model := { H.model with closure := b, taskExecutionUpdatedAt := u },
            closure := { H.closure with customInfo := x },
            warnings := H.warnings, err := none })
    (ht : ptypesTimestamp request.event.occurredAt = .ok t)
    (hmerge : mergeCustom ci request.event.customInfo = .ok ci2) :
    UpdateTaskExecutionModel request
        { H.model with
          closure := Blob.encoded { H.closure with customInfo := ci },
          taskExecutionUpdatedAt := some t }
      = { model :=
            { H.model with
              closure := Blob.encoded { H.closure with customInfo := ci2 },
              taskExecutionUpdatedAt := some t },
          warnings := H.warnings, err := none } := by
  rw [UpdateTaskExecutionModel_stages]
  simp only [protoUnmarshal]
  rw [updateDecoded_terminal _ _ _ hterm,
    updateModel1_fixed request _ (by exact hphase) (by exact hversion),
    updateClosure1_fixed request _ (by exact hcphase) (by exact hupdated) (by exact hlogs),
    hagain]
  simp only []
  rw [finishStage_ok request _ _ _ ci2 t (by exact hmerge) ht]

/-- Claim C9, as amended: after a terminal event has been folded in successfully, folding
the same event in a second time succeeds whenever the second metadata merge does, and the
record it yields equals the record after the first application in every field except that
the custom metadata of the closure is the result of that second merge. When the event
carries no custom metadata the second application succeeds and the record is equal in
every field. -/
theorem terminal_reapply (request : TaskExecutionEventRequest) (m : TaskExecution)
    (hterm : IsTaskExecutionTerminal request.event.phase = true)
    (h : (UpdateTaskExecutionModel request m).err = none) :
    ∃ c1 : TaskExecutionClosure,
      (UpdateTaskExecutionModel request m).model.decodedClosure = some c1
        ∧ (∀ ci2 : Option Fields,
            mergeCustom c1.customInfo request.event.customInfo = .ok ci2 →
              (UpdateTaskExecutionModel request (UpdateTaskExecutionModel request m).model).err
                  = none
                ∧ (UpdateTaskExecutionModel request
                      (UpdateTaskExecutionModel request m).model).model
                  = { (UpdateTaskExecutionModel request m).model with
                      closure := Blob.encoded { c1 with customInfo := ci2 } })
        ∧ (request.event.customInfo = none →
            (UpdateTaskExecutionModel request (UpdateTaskExecutionModel request m).model).err
                = none
              ∧ (UpdateTaskExecutionModel request
                    (UpdateTaskExecutionModel request m).model).model
                = (UpdateTaskExecutionModel request m).model) := by
  obtain ⟨decoded, _, hU⟩ := update_ok_decoded request m h
  rw [hU] at h ⊢
  rw [updateDecoded_terminal request m decoded hterm] at h ⊢
  have hframe := addTaskTerminalState_closure_frame request (updateModel1 request m)
    (updateClosure1 request decoded)
  obtain ⟨d, hmodel⟩ := addTaskTerminalState_model_form request (updateModel1 request m)
    (updateClosure1 request decoded)
  have hagain := addTaskTerminalState_again request (updateModel1 request m)
    (updateClosure1 request decoded)
  have hlogs : mergeLogs (addTaskTerminalState request (updateModel1 request m)
      (updateClosure1 request decoded)).closure.logs request.event.logs
      = (addTaskTerminalState request (updateModel1 request m)
          (updateClosure1 request decoded)).closure.logs := by
    rw [hframe.2.2.1]
    exact mergeLogs_idem decoded.logs request.event.logs
  have hphase : (addTaskTerminalState request (updateModel1 request m)
      (updateClosure1 request decoded)).model.phase = request.event.phase.name := by
    rw [hmodel]; rfl
  have hversion : (addTaskTerminalState request (updateModel1 request m)
      (updateClosure1 request decoded)).model.phaseVersion = request.event.phaseVersion := by
    rw [hmodel]; rfl
  have hcphase := hframe.1
  have hupdated := hframe.2.1
  clear hmodel hframe
  generalize addTaskTerminalState request (updateModel1 request m)
    (updateClosure1 request decoded) = H at *
  cases hHerr : H.err with
  | some e => simp [hHerr] at h
  | none =>
    simp only [hHerr] at h ⊢
    cases hmerge : mergeCustom H.closure.customInfo request.event.customInfo with
    | error e => simp [finishStage, hmerge] at h
    | ok ci =>
      cases ht : ptypesTimestamp request.event.occurredAt with
      | error e => simp [finishStage, hmerge, ht, protoMarshal] at h
      | ok t =>
        rw [finishStage_ok request _ _ _ ci t hmerge ht]
        have htwice := fun ci2 hm2 =>
          update_terminal_twice request H ci ci2 t hterm hphase hversion hcphase hupdated hlogs
            (hagain hHerr) ht hm2
        refine ⟨{ H.closure with customInfo := ci }, rfl, ?_, ?_⟩
        · intro ci2 hm2
          simp only []
          rw [htwice ci2 hm2]
          exact ⟨rfl, rfl⟩
        · intro hnone
          simp only []
          rw [htwice ci (by rw [hnone]; exact mergeCustom_none_right ci)]
          exact ⟨rfl, rfl⟩

/-- Witness of C9: the SUCCEEDED event at second 400, which carries no custom metadata,
folded twice into the record that started at second 200. -/
theorem terminal_reapply_witness :
    IsTaskExecutionTerminal succeededRequest.event.phase = true
      ∧ (UpdateTaskExecutionModel succeededRequest runningRecord).err = none
      ∧ (UpdateTaskExecutionModel succeededRequest
            (UpdateTaskExecutionModel succeededRequest runningRecord).model).err = none
      ∧ (UpdateTaskExecutionModel succeededRequest
            (UpdateTaskExecutionModel succeededRequest runningRecord).model).model
          = (UpdateTaskExecutionModel succeededRequest runningRecord).model := by
  obtain ⟨_, _, _, h3⟩ :=
    terminal_reapply succeededRequest runningRecord (by decide) (by decide)
  exact ⟨by decide, by decide, (h3 rfl).1, (h3 rfl).2⟩

/-- Counterexample to C9 as stated: a SUCCEEDED event whose custom metadata maps `y` to
null, folded into a record whose closure holds no custom metadata. Both applications
succeed; after the first the closure maps `y` to null, after the second it has no entry for
`y`, so the two records differ. -/
theorem terminal_reapply_counterexample :
    IsTaskExecutionTerminal succeededNullRequest.event.phase = true
      ∧ (UpdateTaskExecutionModel succeededNullRequest runningRecord).err = none
      ∧ (UpdateTaskExecutionModel succeededNullRequest
            (UpdateTaskExecutionModel succeededNullRequest runningRecord).model).err = none
      ∧ (UpdateTaskExecutionModel succeededNullRequest runningRecord).model.decodedClosure.map
            TaskExecutionClosure.customInfo
          = some (some (Fields.cons "y" Value.null Fields.nil))
      ∧ (UpdateTaskExecutionModel succeededNullRequest
            (UpdateTaskExecutionModel succeededNullRequest runningRecord).model
          ).model.decodedClosure.map TaskExecutionClosure.customInfo
          = some (some Fields.nil)
      ∧ (Fields.cons "y" Value.null Fields.nil).lookup "y" ≠ Fields.nil.lookup "y"
      ∧ (UpdateTaskExecutionModel succeededNullRequest
            (UpdateTaskExecutionModel succeededNullRequest runningRecord).model).model
          ≠ (UpdateTaskExecutionModel succeededNullRequest runningRecord).model := by
  refine ⟨by decide, by decide, by decide, by decide, by decide, by decide, by decide⟩

/-! ## Duplicate URIs in the merged logs -/

/-- Claim C10, evaluated at a failing input: an event that carries two logs with the URI `a`,
merged into a closure that holds one log with the URI `c`. The merged list is the latest
list followed by the earlier log and holds the URI `a` twice. -/
theorem mergeLogs_duplicates :
    mergeLogs earlierLogs duplicateLatestLogs
        = [{ uri := "a", name := "n1" }, { uri := "a", name := "n2" },
            { uri := "c", name := "old" }]
      ∧ ¬ (logUris (mergeLogs earlierLogs duplicateLatestLogs)).Nodup := by
  refine ⟨by decide, by decide⟩

/-! ## Overlapping and disjoint URIs in the log merge -/

theorem logsWithUri_appended (uri : String) (existing latest : List TaskLog)
    (h : uri ∈ logUris latest) :
    logsWithUri uri (existing.filter (fun e => !decide (e.uri ∈ logUris latest))) = [] := by
  unfold logsWithUri
  rw [List.filter_filter, List.filter_eq_nil_iff]
  intro a _
  by_cases hu : a.uri = uri
  · subst hu
    simp [h]
  · simp [hu]

/-- Claim C11: for every pair of log lists and every URI that occurs in both, the entries of
`mergeLogs existing latest` that carry the URI are exactly the entries of `latest` that
carry it, and the part of the result taken from `existing` holds no entry with that URI.
The lists a/old and a/new, b/new2 merge to a/new, b/new2. -/
theorem mergeLogs_overlap (existing latest : List TaskLog) (uri : String)
    (_hexisting : uri ∈ logUris existing) (hlatest : uri ∈ logUris latest) :
    (logsWithUri uri (mergeLogs existing latest) = logsWithUri uri latest
      ∧ ∃ appended : List TaskLog, mergeLogs existing latest = latest ++ appended
          ∧ List.Sublist appended existing
          ∧ ∀ e ∈ appended, e.uri ≠ uri)
    ∧ mergeLogs overlapExisting overlapLatest = overlapLatest := by
  refine ⟨⟨?_, existing.filter (fun e => !decide (e.uri ∈ logUris latest)),
    mergeLogs_closed existing latest, List.filter_sublist _, ?_⟩, by decide⟩
  · rw [mergeLogs_closed]
    unfold logsWithUri
    rw [List.filter_append]
    have h := logsWithUri_appended uri existing latest hlatest
    unfold logsWithUri at h
    rw [h, List.append_nil]
  · intro e he hu
    rw [List.mem_filter] at he
    rw [hu] at he
    simp [hlatest] at he

/-- Witness of C11: the overlap example of the spec at the URI `a`. -/
theorem mergeLogs_overlap_witness :
    "a" ∈ logUris overlapExisting ∧ "a" ∈ logUris overlapLatest
      ∧ logsWithUri "a" (mergeLogs overlapExisting overlapLatest)
          = [{ uri := "a", name := "new" }] :=
  ⟨by decide, by decide,
    (mergeLogs_overlap overlapExisting overlapLatest "a" (by decide) (by decide)).1.1.trans
      (by decide)⟩

/-- Claim C12: `mergeLogs` drops no log. The URIs that occur in the result are those that
occur in `existing` or in `latest`, and every entry of `existing` whose URI does not occur
in `latest` is an entry of the result. -/
theorem mergeLogs_drops_nothing (existing latest : List TaskLog) :
    (∀ uri : String, uri ∈ logUris (mergeLogs existing latest)
        ↔ uri ∈ logUris existing ∨ uri ∈ logUris latest)
      ∧ (∀ e ∈ existing, e.uri ∉ logUris latest → e ∈ mergeLogs existing latest) := by
  rw [mergeLogs_closed]
  constructor
  · intro uri
    simp only [logUris, List.map_append, List.mem_append, List.mem_map, List.mem_filter]
    constructor
    · rintro (h | ⟨a, ⟨ha, _⟩, hu⟩)
      · exact Or.inr h
      · exact Or.inl ⟨a, ha, hu⟩
    · rintro (⟨a, ha, hu⟩ | h)
      · by_cases hin : ∃ b, b ∈ latest ∧ b.uri = a.uri
        · obtain ⟨b, hb, hbu⟩ := hin
          exact Or.inl ⟨b, hb, hbu.trans hu⟩
        · exact Or.inr ⟨a, ⟨ha, by simpa using hin⟩, hu⟩
      · exact Or.inl h
  · intro e he hnot
    rw [List.mem_append, List.mem_filter]
    exact Or.inr ⟨he, by simp [hnot]⟩

/-- Witness of C12: the earlier log `c` survives the merge with the two latest logs. -/
theorem mergeLogs_drops_nothing_witness :
    ({ uri := "c", name := "old" } : TaskLog) ∈ mergeLogs earlierLogs duplicateLatestLogs :=
  (mergeLogs_drops_nothing earlierLogs duplicateLatestLogs).2 _ (by decide) (by decide)

/-- Claim C19: `mergeLogs` preserves uniqueness by URI. When neither `existing` nor `latest`
holds two entries with the same URI, neither does `mergeLogs existing latest`. -/
theorem mergeLogs_preserves_unique (existing latest : List TaskLog)
    (hexisting : (logUris existing).Nodup) (hlatest : (logUris latest).Nodup) :
    (logUris (mergeLogs existing latest)).Nodup := by
  rw [mergeLogs_closed]
  unfold logUris at *
  rw [List.map_append]
  refine List.Nodup.append hlatest ?_ ?_
  · exact List.Nodup.sublist (List.Sublist.map _ (List.filter_sublist _)) hexisting
  · intro u hu1 hu2
    rw [List.mem_map] at hu2
    obtain ⟨a, ha, rfl⟩ := hu2
    rw [List.mem_filter] at ha
    simp [hu1] at ha

/-- Witness of C19: the two lists of the overlap example are unique by URI, and so is their
merge. -/
theorem mergeLogs_preserves_unique_witness :
    (logUris overlapExisting).Nodup ∧ (logUris overlapLatest).Nodup
      ∧ (logUris (mergeLogs overlapExisting overlapLatest)).Nodup :=
  ⟨by decide, by decide,
    mergeLogs_preserves_unique overlapExisting overlapLatest (by decide) (by decide)⟩

/-! ## Identity and refinement of the metadata merge -/

/-- Claim C13: the identity law of the metadata merge. With the existing document absent
`mergeCustom` returns the latest one unchanged, with the latest document absent it returns
the existing one unchanged, and absent merged with absent is absent. No encoding takes
place: the law holds for a document that `protojson.Marshal` rejects as well. -/
theorem mergeCustom_identity (d : Option Fields) :
    mergeCustom none d = .ok d
      ∧ mergeCustom d none = .ok d
      ∧ mergeCustom none none = .ok none
      ∧ (∃ e : String, protojsonMarshal docNaN = .error e)
      ∧ mergeCustom none (some docNaN) = .ok (some docNaN)
      ∧ mergeCustom (some docNaN) none = .ok (some docNaN) := by
  refine ⟨rfl, ?_, rfl, ⟨_, rfl⟩, rfl, rfl⟩
  cases d <;> rfl

/-- A key the patch mentions is, after the merge, what the one turn of the loop for that
field makes of it in a document that agrees with the original one on that key. -/
theorem lookup_mergeDocs_present_at (k : String) (v : Value) :
    ∀ (patch doc : Fields), patch.keysUnique = true → patch.lookup k = some v →
      ∃ doc2 : Fields, doc2.lookup k = doc.lookup k
        ∧ (mergeDocs doc patch).lookup k = (stepDoc doc2 k v).lookup k
  | .nil, _, _, h => by simp [Fields.lookup] at h
  | .cons key w rest, doc, hu, h => by
    simp only [Fields.keysUnique, Bool.and_eq_true, Bool.not_eq_true', Fields.hasKey] at hu
    by_cases hk : key = k
    · subst hk
      have hv : w = v := by simpa [Fields.lookup] using h
      subst hv
      have hrest : rest.lookup key = none := by
        cases hr : rest.lookup key with
        | none => rfl
        | some x => simp [hr] at hu
      exact ⟨doc, rfl, by rw [mergeDocs_cons, lookup_mergeDocs_absent key rest _ hrest]⟩
    · have hrest : rest.lookup k = some v := by simpa [Fields.lookup, hk] using h
      rw [mergeDocs_cons]
      obtain ⟨doc2, h2, h3⟩ := lookup_mergeDocs_present_at k v rest _ hu.2 hrest
      exact ⟨doc2, h2.trans (stepDoc_lookup_other doc key k w hk), h3⟩

/-- Claim C18: the two-step derivation of `mergeCustom` is the direct application of the
latest document as an RFC 7396 merge patch. The patch derived from the empty document to
`latest` is `latest` itself, so `mergeCustom` on two present documents equals the direct
application; where both documents hold an object under a key, the result holds the merge of
the two objects under it. -/
theorem mergeCustom_refines_mergePatch (existing latest : Fields) :
    createMergePatch jsonEmpty latest = .ok latest
      ∧ mergeCustom (some existing) (some latest) = applyLatestAsMergePatch existing latest
      ∧ (∀ (k : String) (cur patch : Fields) (r : Option Fields),
          latest.keysUnique = true →
          existing.lookup k = some (Value.struct cur) →
          latest.lookup k = some (Value.struct patch) →
          mergeCustom (some existing) (some latest) = .ok r →
          ∃ result : Fields, r = some result
            ∧ result.lookup k = some (Value.struct (mergeDocs cur patch))) := by
  refine ⟨createMergePatch_jsonEmpty latest, ?_, ?_⟩
  · unfold mergeCustom applyLatestAsMergePatch
    simp only [createMergePatch_jsonEmpty]
  · intro k cur patch r hu hcur hpatch h
    refine ⟨mergeDocs existing latest, mergeCustom_ok_eq existing latest r h, ?_⟩
    obtain ⟨doc2, h2, h3⟩ :=
      lookup_mergeDocs_present_at k (Value.struct patch) latest existing hu hpatch
    rw [h3]
    have hd : doc2.lookup k = some (Value.struct cur) := h2.trans hcur
    have hstep : stepDoc doc2 k (Value.struct patch)
        = doc2.set k (Value.struct (mergeDocs cur patch)) := by
      simp only [stepDoc, hd]
    rw [hstep]
    exact Fields.lookup_set_self k _ doc2

/-- Witness of C18: the nested documents n:(p:1, q:2) and n:(q:null, r:3) merge to
n:(p:1, r:3). -/
theorem mergeCustom_refines_mergePatch_witness :
    docNestedPatch.keysUnique = true
      ∧ ∃ result : Fields, mergeCustom (some docNested) (some docNestedPatch) = .ok (some result)
          ∧ result.lookup "n"
              = some (Value.struct
                  (.cons "p" (.number (.finite 1)) (.cons "r" (.number (.finite 3)) .nil))) :=
  ⟨by decide, by
    obtain ⟨result, hr, hl⟩ :=
      (mergeCustom_refines_mergePatch docNested docNestedPatch).2.2 "n" _ _
        (some (mergeDocs docNested docNestedPatch)) (by decide) rfl rfl rfl
    rw [Option.some.injEq] at hr
    subst hr
    exact ⟨_, rfl, hl.trans (by decide)⟩⟩

/-! ## What a successful update overwrites -/

theorem addTaskStartedState_closure_frame (request : TaskExecutionEventRequest)
    (m : TaskExecution) (c : TaskExecutionClosure) :
    (addTaskStartedState request m c).closure.phase = c.phase
      ∧ (addTaskStartedState request m c).closure.updatedAt = c.updatedAt
      ∧ (addTaskStartedState request m c).closure.logs = c.logs
      ∧ (addTaskStartedState request m c).closure.createdAt = c.createdAt
      ∧ (addTaskStartedState request m c).closure.customInfo = c.customInfo
      ∧ (addTaskStartedState request m c).closure.duration = c.duration
      ∧ (addTaskStartedState request m c).closure.outputResult = c.outputResult := by
  unfold addTaskStartedState
  split <;> exact ⟨rfl, rfl, rfl, rfl, rfl, rfl, rfl⟩

theorem startStage_closure_frame (request : TaskExecutionEventRequest) (m : TaskExecution)
    (decoded : TaskExecutionClosure) :
    (startStage request m decoded).closure.phase = request.event.phase
      ∧ (startStage request m decoded).closure.updatedAt = request.event.occurredAt
      ∧ (startStage request m decoded).closure.logs = mergeLogs decoded.logs request.event.logs
      ∧ (startStage request m decoded).closure.createdAt = decoded.createdAt
      ∧ (startStage request m decoded).closure.customInfo = decoded.customInfo := by
  unfold startStage
  split
  · have h := addTaskStartedState_closure_frame request (updateModel1 request m)
      (updateClosure1 request decoded)
    exact ⟨h.1, h.2.1, h.2.2.1, h.2.2.2.1, h.2.2.2.2.1⟩
  · exact ⟨rfl, rfl, rfl, rfl, rfl⟩

theorem terminalStage_closure_frame (request : TaskExecutionEventRequest)
    (started : HandlerResult) :
    (terminalStage request started).closure.phase = started.closure.phase
      ∧ (terminalStage request started).closure.updatedAt = started.closure.updatedAt
      ∧ (terminalStage request started).closure.logs = started.closure.logs
      ∧ (terminalStage request started).closure.createdAt = started.closure.createdAt
      ∧ (terminalStage request started).closure.customInfo = started.closure.customInfo := by
  unfold terminalStage
  split
  · exact addTaskTerminalState_closure_frame request started.model started.closure
  · exact ⟨rfl, rfl, rfl, rfl, rfl⟩

/-- Claim C14: when `UpdateTaskExecutionModel` succeeds, whatever the phase and the phase
version of the record were, afterwards the phase of the record is the name of the phase of
the event, its phase version is that of the event, the phase of the closure is the phase of
the event, and the update time of the closure and of the record is the occurrence time of
the event. -/
theorem update_overwrites (request : TaskExecutionEventRequest) (m : TaskExecution)
    (h : (UpdateTaskExecutionModel request m).err = none) :
    (UpdateTaskExecutionModel request m).model.phase = request.event.phase.name
      ∧ (UpdateTaskExecutionModel request m).model.phaseVersion = request.event.phaseVersion
      ∧ (∃ c : TaskExecutionClosure,
          (UpdateTaskExecutionModel request m).model.decodedClosure = some c
            ∧ c.phase = request.event.phase
            ∧ c.updatedAt = request.event.occurredAt)
      ∧ (∃ t : Time, ptypesTimestamp request.event.occurredAt = .ok t
          ∧ (UpdateTaskExecutionModel request m).model.taskExecutionUpdatedAt = some t) := by
  obtain ⟨decoded, _, hU⟩ := update_ok_decoded request m h
  rw [hU] at h ⊢
  obtain ⟨t, ci, _, _, _, ht, hm⟩ := updateDecoded_ok_form request m decoded h
  obtain ⟨d, hd⟩ := terminalStage_model_form request (startStage request m decoded)
  obtain ⟨x, hx⟩ := startStage_model_form request m decoded
  have hc := terminalStage_closure_frame request (startStage request m decoded)
  have hs := startStage_closure_frame request m decoded
  rw [hm]
  refine ⟨?_, ?_, ⟨_, rfl, ?_, ?_⟩, t, ht, rfl⟩
  · rw [hd, hx]; rfl
  · rw [hd, hx]; rfl
  · exact hc.1.trans hs.1
  · exact hc.2.1.trans hs.2.1

/-- Witness of C14: the QUEUED event at second 100 folded into a record in phase SUCCEEDED
with phase version 7 regresses the phase to QUEUED and the phase version to 0. -/
theorem update_overwrites_witness :
    (UpdateTaskExecutionModel queuedRequest succeededRecord).err = none
      ∧ succeededRecord.phase = "SUCCEEDED" ∧ succeededRecord.phaseVersion = 7
      ∧ (UpdateTaskExecutionModel queuedRequest succeededRecord).model.phase = "QUEUED"
      ∧ (UpdateTaskExecutionModel queuedRequest succeededRecord).model.phaseVersion = 0 :=
  ⟨by decide, rfl, rfl,
    (update_overwrites queuedRequest succeededRecord (by decide)).1,
    (update_overwrites queuedRequest succeededRecord (by decide)).2.1⟩

/-! ## Success and failure of the create path -/

theorem ptypesTimestamp_ok_iff (ts : Option Timestamp) :
    (∃ t : Time, ptypesTimestamp ts = .ok t) ↔ validateTimestamp ts = true := by
  unfold ptypesTimestamp
  cases ts with
  | none => simp [validateTimestamp]
  | some v =>
    by_cases h : validateTimestamp (some v) = true
    · simp [h]
    · simp [h]

theorem create_terminal_err (input : CreateTaskExecutionModelInput) :
    (terminalStage input.request (createStartStage input)).err = none := by
  by_cases ht : IsTaskExecutionTerminal input.request.event.phase = true
  · rw [createStartStage_not_running input (terminal_not_running _ ht),
      terminalStage_of_terminal_unstarted _ _ ht rfl]
  · have hf : IsTaskExecutionTerminal input.request.event.phase = false := by
      simpa using ht
    rw [terminalStage_of_not_terminal _ _ hf]

theorem createStartStage_err_of_ok (input : CreateTaskExecutionModelInput) (t : Time)
    (ht : ptypesTimestamp input.request.event.occurredAt = .ok t) :
    (createStartStage input).err = none := by
  unfold createStartStage addTaskStartedState
  split
  · simp [ht]
  · rfl

/-- With a parsable occurrence time the create path returns a record and no error. -/
theorem create_of_parsable (input : CreateTaskExecutionModelInput) (t : Time)
    (ht : ptypesTimestamp input.request.event.occurredAt = .ok t) :
    (CreateTaskExecutionModel input).err = none
      ∧ (CreateTaskExecutionModel input).taskExecution = some
          { (terminalStage input.request (createStartStage input)).model with
            closure := Blob.encoded (terminalStage input.request (createStartStage input)).closure,
            taskExecutionCreatedAt := some t,
            taskExecutionUpdatedAt := some t } := by
  rw [CreateTaskExecutionModel_stages]
  rw [createStartStage_err_of_ok input t ht, create_terminal_err input, ht]
  exact ⟨rfl, rfl⟩

/-- With an unparsable occurrence time the create path returns an internal error and no
record. -/
theorem create_of_unparsable (input : CreateTaskExecutionModelInput) (e : String)
    (ht : ptypesTimestamp input.request.event.occurredAt = .error e) :
    (CreateTaskExecutionModel input).taskExecution = none
      ∧ ∃ err : FlyteAdminError, (CreateTaskExecutionModel input).err = some err
          ∧ err.code = Codes.Internal := by
  rw [CreateTaskExecutionModel_stages]
  cases h1 : (createStartStage input).err with
  | some err =>
    refine ⟨rfl, err, rfl, ?_⟩
    unfold createStartStage addTaskStartedState at h1
    split at h1
    · simp only [ht, Option.some.injEq] at h1
      rw [← h1]
      rfl
    · simp at h1
  | none =>
    rw [create_terminal_err input, ht]
    exact ⟨rfl, _, rfl, rfl⟩

/-- Claim C15: closure serialization never failing, `CreateTaskExecutionModel` fails if and
only if the occurrence timestamp of the event cannot be parsed (it is absent or out of
range), whatever the phase of the event; when it fails it returns an internal error and no
record, and when it succeeds it returns a record. -/
theorem create_fails_iff_unparsable (input : CreateTaskExecutionModelInput) :
    ((CreateTaskExecutionModel input).err ≠ none
        ↔ validateTimestamp input.request.event.occurredAt = false)
      ∧ ((CreateTaskExecutionModel input).err ≠ none →
          (CreateTaskExecutionModel input).taskExecution = none
            ∧ ∃ err : FlyteAdminError, (CreateTaskExecutionModel input).err = some err
                ∧ err.code = Codes.Internal)
      ∧ ((CreateTaskExecutionModel input).err = none →
          ∃ created : TaskExecution,
            (CreateTaskExecutionModel input).taskExecution = some created) := by
  cases ht : ptypesTimestamp input.request.event.occurredAt with
  | ok t =>
    have hv : validateTimestamp input.request.event.occurredAt = true :=
      (ptypesTimestamp_ok_iff _).1 ⟨t, ht⟩
    obtain ⟨h1, h2⟩ := create_of_parsable input t ht
    refine ⟨⟨fun hne => absurd h1 hne, fun hf => by rw [hv] at hf; exact absurd hf (by decide)⟩,
      fun hne => absurd h1 hne, fun _ => ⟨_, h2⟩⟩
  | error e =>
    have hv : validateTimestamp input.request.event.occurredAt = false := by
      cases hval : validateTimestamp input.request.event.occurredAt with
      | false => rfl
      | true =>
        obtain ⟨t, ht2⟩ := (ptypesTimestamp_ok_iff _).2 hval
        rw [ht] at ht2
        exact absurd ht2 (by simp)
    obtain ⟨h1, err, h2, h3⟩ := create_of_unparsable input e ht
    have hne : (CreateTaskExecutionModel input).err ≠ none := by
      rw [h2]; simp
    exact ⟨⟨fun _ => hv, fun _ => hne⟩, fun _ => ⟨h1, err, h2, h3⟩, fun h => absurd h hne⟩

/-- Witness of C15: the RUNNING event without an occurrence time is rejected with an
internal error and no record. -/
theorem create_fails_iff_unparsable_witness :
    validateTimestamp untimedRunningRequest.event.occurredAt = false
      ∧ (CreateTaskExecutionModel { request := untimedRunningRequest }).err ≠ none
      ∧ (CreateTaskExecutionModel { request := untimedRunningRequest }).taskExecution = none :=
  ⟨rfl,
    (create_fails_iff_unparsable { request := untimedRunningRequest }).1.2 rfl,
    ((create_fails_iff_unparsable { request := untimedRunningRequest }).2.1
      ((create_fails_iff_unparsable { request := untimedRunningRequest }).1.2 rfl)).1⟩

theorem setOutputResult_frame (request : TaskExecutionEventRequest)
    (c : TaskExecutionClosure) :
    (setOutputResult request c).phase = c.phase
      ∧ (setOutputResult request c).logs = c.logs
      ∧ (setOutputResult request c).customInfo = c.customInfo
      ∧ (setOutputResult request c).createdAt = c.createdAt
      ∧ (setOutputResult request c).updatedAt = c.updatedAt
      ∧ (setOutputResult request c).startedAt = c.startedAt := by
  rcases setOutputResult_cases request with ⟨out, hout⟩ | hid
  · rw [hout]
    exact ⟨rfl, rfl, rfl, rfl, rfl, rfl⟩
  · rw [hid]
    exact ⟨rfl, rfl, rfl, rfl, rfl, rfl⟩

/-- Claim C16: for an event with a parsable occurrence timestamp `CreateTaskExecutionModel`
returns a record that carries the identity fields, the phase name, the phase version and the
input location of the event; its closure holds the phase, the logs and the custom metadata
of the event with the creation and update times at the occurrence time; the creation and
update times of the record are the occurrence time; the start time is set, to the occurrence
time on the record and in the closure, if and only if the phase of the event is RUNNING. -/
theorem create_fields (input : CreateTaskExecutionModelInput) (t : Time)
    (ht : ptypesTimestamp input.request.event.occurredAt = .ok t) :
    ∃ (created : TaskExecution) (c : TaskExecutionClosure),
      (CreateTaskExecutionModel input).taskExecution = some created
        ∧ (CreateTaskExecutionModel input).err = none
        ∧ created.taskExecutionKey =
            { taskKey :=
                { project := input.request.event.taskId.project,
                  domain := input.request.event.taskId.domain,
                  name := input.request.event.taskId.name,
                  version := input.request.event.taskId.version },
              nodeExecutionKey :=
                { nodeID := input.request.event.parentNodeExecutionId.nodeId,
                  executionKey :=
                    { project := input.request.event.parentNodeExecutionId.executionId.project,
                      domain := input.request.event.parentNodeExecutionId.executionId.domain,
                      name := input.request.event.parentNodeExecutionId.executionId.name } },
              retryAttempt := some input.request.event.retryAttempt }
        ∧ created.phase = input.request.event.phase.name
        ∧ created.phaseVersion = input.request.event.phaseVersion
        ∧ created.inputURI = input.request.event.inputUri
        ∧ created.decodedClosure = some c
        ∧ c.phase = input.request.event.phase
        ∧ c.logs = input.request.event.logs
        ∧ c.customInfo = input.request.event.customInfo
        ∧ c.createdAt = input.request.event.occurredAt
        ∧ c.updatedAt = input.request.event.occurredAt
        ∧ created.taskExecutionCreatedAt = some t
        ∧ created.taskExecutionUpdatedAt = some t
        ∧ (input.request.event.phase = Phase.RUNNING →
            created.startedAt = some t ∧ c.startedAt = input.request.event.occurredAt)
        ∧ (input.request.event.phase ≠ Phase.RUNNING →
            created.startedAt = none ∧ c.startedAt = none) := by
  obtain ⟨herr, hrec⟩ := create_of_parsable input t ht
  refine ⟨_, (terminalStage input.request (createStartStage input)).closure, hrec, herr, ?_⟩
  by_cases hr : input.request.event.phase = Phase.RUNNING
  · have hs : createStartStage input =
        { model := { createModel0 input with startedAt := some t },
          closure := { createClosure0 input with startedAt := input.request.event.occurredAt },
          warnings := [], err := none } := by
      simp [createStartStage, hr, addTaskStartedState, ht]
    have hnt : IsTaskExecutionTerminal input.request.event.phase = false := by
      rw [hr]; rfl
    rw [hs, terminalStage_of_not_terminal _ _ hnt]
    exact ⟨rfl, rfl, rfl, rfl, rfl, rfl, rfl, rfl, rfl, rfl, rfl, rfl,
      fun _ => ⟨rfl, rfl⟩, fun hne => absurd hr hne⟩
  · rw [createStartStage_not_running input hr]
    by_cases hterm : IsTaskExecutionTerminal input.request.event.phase = true
    · rw [terminalStage_of_terminal_unstarted _ _ hterm rfl]
      have hf := setOutputResult_frame input.request (createClosure0 input)
      exact ⟨rfl, rfl, rfl, rfl, rfl, hf.1, hf.2.1, hf.2.2.1, hf.2.2.2.1, hf.2.2.2.2.1, rfl,
        rfl, fun h => absurd h hr, fun _ => ⟨rfl, hf.2.2.2.2.2⟩⟩
    · have hf : IsTaskExecutionTerminal input.request.event.phase = false := by
        simpa using hterm
      rw [terminalStage_of_not_terminal _ _ hf]
      exact ⟨rfl, rfl, rfl, rfl, rfl, rfl, rfl, rfl, rfl, rfl, rfl, rfl,
        fun h => absurd h hr, fun _ => ⟨rfl, rfl⟩⟩

/-- Witness of C16: the record created from the RUNNING event at second 200 with logs and
custom metadata. -/
theorem create_fields_witness :
    ptypesTimestamp runningDetailedRequest.event.occurredAt = .ok 200000000000
      ∧ ∃ (created : TaskExecution) (c : TaskExecutionClosure),
          (CreateTaskExecutionModel { request := runningDetailedRequest }).taskExecution
              = some created
            ∧ created.decodedClosure = some c
            ∧ created.phase = "RUNNING"
            ∧ c.logs = overlapLatest
            ∧ c.customInfo = some docXY
            ∧ created.startedAt = some 200000000000 := by
  refine ⟨rfl, ?_⟩
  obtain ⟨created, c, h1, _, _, h4, _, _, h7, _, h9, h10, _, _, _, _, h15, _⟩ :=
    create_fields { request := runningDetailedRequest } 200000000000 rfl
  exact ⟨created, c, h1, h7, h4, h9, h10, (h15 rfl).1⟩

/-! ## The read path -/

/-- Claim C17: for a persisted record whose closure decodes, `FromTaskExecutionModel` returns
a descriptor whose `is_parent` flag is true if and only if the record has at least one child
node execution, however many, and whose identity fields, input location and closure are
those of the record. The record is passed by value and the descriptor is all the function
produces. -/
theorem from_model_descriptor (m : TaskExecution) (c : TaskExecutionClosure) (n : Nat)
    (hdecodes : protoUnmarshal m.closure = .ok c)
    (hretry : m.taskExecutionKey.retryAttempt = some n) :
    ∃ d : AdminTaskExecution, FromTaskExecutionModel m = FromResult.returned d
      ∧ (d.isParent = true ↔ 0 < m.childNodeExecution.length)
      ∧ d.id.taskId.resourceType = ResourceType.TASK
      ∧ d.id.taskId.project = m.taskExecutionKey.taskKey.project
      ∧ d.id.taskId.domain = m.taskExecutionKey.taskKey.domain
      ∧ d.id.taskId.name = m.taskExecutionKey.taskKey.name
      ∧ d.id.taskId.version = m.taskExecutionKey.taskKey.version
      ∧ d.id.nodeExecutionId.nodeId = m.taskExecutionKey.nodeExecutionKey.nodeID
      ∧ d.id.nodeExecutionId.executionId.project
          = m.taskExecutionKey.nodeExecutionKey.executionKey.project
      ∧ d.id.nodeExecutionId.executionId.domain
          = m.taskExecutionKey.nodeExecutionKey.executionKey.domain
      ∧ d.id.nodeExecutionId.executionId.name
          = m.taskExecutionKey.nodeExecutionKey.executionKey.name
      ∧ d.id.retryAttempt = n
      ∧ d.inputUri = m.inputURI
      ∧ d.closure = some c := by
  unfold FromTaskExecutionModel
  simp only [hdecodes, hretry]
  by_cases hlen : m.childNodeExecution.length > 0
  · rw [if_pos hlen]
    exact ⟨_, rfl, ⟨fun _ => hlen, fun _ => rfl⟩, rfl, rfl, rfl, rfl, rfl, rfl, rfl, rfl, rfl,
      rfl, rfl, rfl⟩
  · rw [if_neg hlen]
    exact ⟨_, rfl, ⟨fun h => absurd h (by simp), fun h => absurd h hlen⟩, rfl, rfl, rfl, rfl,
      rfl, rfl, rfl, rfl, rfl, rfl, rfl, rfl⟩

/-- Witness of C17: the record with two children is a parent, the record without children
is not. -/
theorem from_model_descriptor_witness :
    (∃ d : AdminTaskExecution, FromTaskExecutionModel parentRecord = FromResult.returned d
        ∧ d.isParent = true)
      ∧ (∃ d : AdminTaskExecution, FromTaskExecutionModel runningRecord = FromResult.returned d
        ∧ d.isParent = false) := by
  obtain ⟨d1, h1, hp1, _⟩ := from_model_descriptor parentRecord emptyClosure 0 rfl rfl
  obtain ⟨d2, h2, hp2, _⟩ := from_model_descriptor runningRecord emptyClosure 0 rfl rfl
  refine ⟨⟨d1, h1, hp1.2 (by decide)⟩, ⟨d2, h2, ?_⟩⟩
  cases hd : d2.isParent with
  | false => rfl
  | true => exact absurd (hp2.1 hd) (by decide)

/-! ## Applying a non-terminal event twice -/

/-- The update stages for a non-terminal event: the start stage, then the final stage. -/
theorem updateDecoded_not_terminal (request : TaskExecutionEventRequest) (m : TaskExecution)
    (decoded : TaskExecutionClosure)
    (hnt : IsTaskExecutionTerminal request.event.phase = false) :
    updateDecoded request m decoded =
      match (startStage request m decoded).err with
      | some err =>
        { model := (startStage request m decoded).model,
          warnings := (startStage request m decoded).warnings, err := some err }
      | none =>
        finishStage request (startStage request m decoded).model
          (startStage request m decoded).closure
          ((startStage request m decoded).warnings ++ []) := by
  unfold updateDecoded
  rw [terminalStage_of_not_terminal request _ hnt]

theorem no_transition_after_update (request : TaskExecutionEventRequest) (m : TaskExecution)
    (hphase : m.phase = request.event.phase.name) : ¬ startTransition request m := by
  intro hs
  have hrun : m.phase = Phase.RUNNING.name := hphase.trans hs.2
  rcases hs.1 with hq | hu
  · rw [hrun] at hq
    exact absurd hq (by decide)
  · rw [hrun] at hu
    exact absurd hu (by decide)

/-- The record and the outcome of a second application of a non-terminal event, in terms of
what the start stage produced in the first application. -/
theorem update_nonterminal_twice (request : TaskExecutionEventRequest) (S : HandlerResult)
    (ci ci2 : Option Fields) (t : Time)
    (hnt : IsTaskExecutionTerminal request.event.phase = false)
    (hphase : S.model.phase = request.event.phase.name)
    (hversion : S.model.phaseVersion = request.event.phaseVersion)
    (hcphase : S.closure.phase = request.event.phase)
    (hupdated : S.closure.updatedAt = request.event.occurredAt)
    (hlogs : mergeLogs S.closure.logs request.event.logs = S.closure.logs)
    (ht : ptypesTimestamp request.event.occurredAt = .ok t)
    (hmerge : mergeCustom ci request.event.customInfo = .ok ci2) :
    UpdateTaskExecutionModel request
        { S.model with
          closure := Blob.encoded { S.closure with customInfo := ci },
          taskExecutionUpdatedAt := some t }
      = { model :=
            { S.model with
              closure := Blob.encoded { S.closure with customInfo := ci2 },
              taskExecutionUpdatedAt := some t },
          warnings := [], err := none } := by
  have hno : ∀ (b : Blob) (u : Option Time),
      ¬ startTransition request { S.model with closure := b, taskExecutionUpdatedAt := u } :=
    fun _ _ => no_transition_after_update request _ hphase
  rw [UpdateTaskExecutionModel_stages]
  simp only [protoUnmarshal]
  rw [updateDecoded_not_terminal _ _ _ hnt,
    startStage_of_no_transition request _ _ (hno _ _),
    updateModel1_fixed request _ (by exact hphase) (by exact hversion),
    updateClosure1_fixed request _ (by exact hcphase) (by exact hupdated) (by exact hlogs)]
  simp only []
  rw [finishStage_ok request _ _ _ ci2 t (by exact hmerge) ht]
  rfl

/-- Claim C20, as amended: after a non-terminal event (a RUNNING event that triggers the
start transition included) has been folded in successfully, folding the same event in a
second time succeeds whenever the second metadata merge does, and the record it yields
equals the record after the first application in every field except that the custom
metadata of the closure is the result of that second merge. When the event carries no
custom metadata the second application succeeds and the record is equal in every field. -/
theorem nonterminal_redelivery (request : TaskExecutionEventRequest) (m : TaskExecution)
    (hnt : IsTaskExecutionTerminal request.event.phase = false)
    (h : (UpdateTaskExecutionModel request m).err = none) :
    ∃ c1 : TaskExecutionClosure,
      (UpdateTaskExecutionModel request m).model.decodedClosure = some c1
        ∧ (∀ ci2 : Option Fields,
            mergeCustom c1.customInfo request.event.customInfo = .ok ci2 →
              (UpdateTaskExecutionModel request (UpdateTaskExecutionModel request m).model).err
                  = none
                ∧ (UpdateTaskExecutionModel request
                      (UpdateTaskExecutionModel request m).model).model
                  = { (UpdateTaskExecutionModel request m).model with
                      closure := Blob.encoded { c1 with customInfo := ci2 } })
        ∧ (request.event.customInfo = none →
            (UpdateTaskExecutionModel request (UpdateTaskExecutionModel request m).model).err
                = none
              ∧ (UpdateTaskExecutionModel request
                    (UpdateTaskExecutionModel request m).model).model
                = (UpdateTaskExecutionModel request m).model) := by
  obtain ⟨decoded, _, hU⟩ := update_ok_decoded request m h
  rw [hU] at h ⊢
  rw [updateDecoded_not_terminal request m decoded hnt] at h ⊢
  have hframe := startStage_closure_frame request m decoded
  obtain ⟨x, hmodel⟩ := startStage_model_form request m decoded
  have hlogs : mergeLogs (startStage request m decoded).closure.logs request.event.logs
      = (startStage request m decoded).closure.logs := by
    rw [hframe.2.2.1]
    exact mergeLogs_idem decoded.logs request.event.logs
  have hphase : (startStage request m decoded).model.phase = request.event.phase.name := by
    rw [hmodel]; rfl
  have hversion : (startStage request m decoded).model.phaseVersion
      = request.event.phaseVersion := by
    rw [hmodel]; rfl
  have hcphase := hframe.1
  have hupdated := hframe.2.1
  clear hmodel hframe
  generalize startStage request m decoded = S at *
  cases hSerr : S.err with
  | some e => simp [hSerr] at h
  | none =>
    simp only [hSerr] at h ⊢
    cases hmerge : mergeCustom S.closure.customInfo request.event.customInfo with
    | error e => simp [finishStage, hmerge] at h
    | ok ci =>
      cases ht : ptypesTimestamp request.event.occurredAt with
      | error e => simp [finishStage, hmerge, ht, protoMarshal] at h
      | ok t =>
        rw [finishStage_ok request _ _ _ ci t hmerge ht]
        have htwice := fun ci2 hm2 =>
          update_nonterminal_twice request S ci ci2 t hnt hphase hversion hcphase hupdated
            hlogs ht hm2
        refine ⟨{ S.closure with customInfo := ci }, rfl, ?_, ?_⟩
        · intro ci2 hm2
          simp only []
          rw [htwice ci2 hm2]
          exact ⟨rfl, rfl⟩
        · intro hnone
          simp only []
          rw [htwice ci (by rw [hnone]; exact mergeCustom_none_right ci)]
          exact ⟨rfl, rfl⟩

/-- Witness of C20: the RUNNING event at second 200, which carries no custom metadata and
triggers the start transition, folded twice into the QUEUED record. -/
theorem nonterminal_redelivery_witness :
    IsTaskExecutionTerminal runningRequest.event.phase = false
      ∧ (UpdateTaskExecutionModel runningRequest queuedRecord).err = none
      ∧ (UpdateTaskExecutionModel runningRequest
            (UpdateTaskExecutionModel runningRequest queuedRecord).model).err = none
      ∧ (UpdateTaskExecutionModel runningRequest
            (UpdateTaskExecutionModel runningRequest queuedRecord).model).model
          = (UpdateTaskExecutionModel runningRequest queuedRecord).model := by
  obtain ⟨_, _, _, h3⟩ :=
    nonterminal_redelivery runningRequest queuedRecord (by decide) (by decide)
  exact ⟨by decide, by decide, (h3 rfl).1, (h3 rfl).2⟩

/-- Counterexample to C20 as stated: a RUNNING event whose custom metadata maps `y` to
null, folded into a QUEUED record whose closure holds no custom metadata. Both applications
succeed; after the first the closure maps `y` to null, after the second it has no entry for
`y`, so the two records differ. -/
theorem nonterminal_redelivery_counterexample :
    IsTaskExecutionTerminal runningNullRequest.event.phase = false
      ∧ (UpdateTaskExecutionModel runningNullRequest queuedRecord).err = none
      ∧ (UpdateTaskExecutionModel runningNullRequest
            (UpdateTaskExecutionModel runningNullRequest queuedRecord).model).err = none
      ∧ (UpdateTaskExecutionModel runningNullRequest queuedRecord).model.decodedClosure.map
            TaskExecutionClosure.customInfo
          = some (some (Fields.cons "y" Value.null Fields.nil))
      ∧ (UpdateTaskExecutionModel runningNullRequest
            (UpdateTaskExecutionModel runningNullRequest queuedRecord).model
          ).model.decodedClosure.map TaskExecutionClosure.customInfo
          = some (some Fields.nil)
      ∧ (Fields.cons "y" Value.null Fields.nil).lookup "y" ≠ Fields.nil.lookup "y"
      ∧ (UpdateTaskExecutionModel runningNullRequest
            (UpdateTaskExecutionModel runningNullRequest queuedRecord).model).model
          ≠ (UpdateTaskExecutionModel runningNullRequest queuedRecord).model := by
  refine ⟨by decide, by decide, by decide, by decide, by decide, by decide, by decide⟩

end Transformers
